import Mathlib

/-!
# Visual Computing Assignment 2: affine matrix and pixel-buffer filters

A shallow embedding of `cv_geom.cpp`, `cv_filters.cpp`, the uniform hand-off of
`gpu_pipeline.cpp`, the benchmark driver of `main.cpp` and the key handling of
`interactive.cpp`.

Conventions of the embedding.

* `float`/`double` values are elements of a field `α`; the theorems take
  `α := ℝ` and the executable instances take `α := ℚ`.  Rounding of
  floating-point operations and of decimal literals is not modelled, with one
  exception: the source index of `cv::resize` with `INTER_NEAREST` is the
  floor of a product of doubles, where the rounding decides which pixel is
  read, and `nearestIndex` computes it with the roundings of IEEE doubles.
* `std::cos`, `std::sin` and `std::sqrt` are parameters `cosF sinF sqrtF : α → α`;
  the theorems instantiate them with `Real.cos`, `Real.sin` and `Real.sqrt`.
* Clock readings and window events of the render loop are inputs: the list of
  `Tick`s that the environment delivers.
* `int` values are `Int`, image dimensions and byte channels are `Nat`.
* Routines of the OpenCV library that the source calls are written out from
  the library's documented formulas; each such definition says so.
-/

namespace VisualComputing

/-! ## cv_geom.hpp / cv_geom.cpp -/

/-- The `struct AffineParams` of cv_geom.hpp: translation in pixels, uniform
scale and rotation angle in degrees. -/
structure AffineParams (α : Type) where
  tx : α
  ty : α
  scale : α
  thetaDeg : α

/-- The value `AffineParams{}` given by the default member initialisers
(`tx = 0`, `ty = 0`, `scale = 1`, `thetaDeg = 0`). -/
def AffineParams.init {α : Type} [Field α] : AffineParams α :=
  { tx := 0, ty := 0, scale := 1, thetaDeg := 0 }

/-- The literal `3.1415926535f` of `affineMatrix`. -/
def piLiteral {α : Type} [Field α] : α := 31415926535 / 10000000000

/-- The constant `CV_PI` of OpenCV (`3.1415926535897932384626433832795`). -/
def CV_PI {α : Type} [Field α] : α :=
  31415926535897932384626433832795 / 10000000000000000000000000000000

/-- The angle conversion of `affineMatrix`: `p.thetaDeg * 3.1415926535f / 180.f`. -/
def radOf {α : Type} [Field α] (thetaDeg : α) : α := thetaDeg * piLiteral / 180

/-- OpenCV library routine `cv::getRotationMatrix2D(center, angle, scale)`,
written out from its documented formula: with `a = scale * cos angle` and
`b = scale * sin angle` (angle converted by `CV_PI / 180`) the result is
`[a, b, (1 - a) * cx - b * cy; -b, a, b * cx + (1 - a) * cy]`. -/
def getRotationMatrix2D {α : Type} [Field α] (cosF sinF : α → α)
    (cx cy angle scale : α) : Matrix (Fin 2) (Fin 3) α :=
  let ang := angle * (CV_PI / 180)
  let a := cosF ang * scale
  let b := sinF ang * scale
  !![a, b, (1 - a) * cx - b * cy;
     -b, a, b * cx + (1 - a) * cy]

/-- The function `makeAffine23` of cv_geom.cpp: rotation and scaling about the
image centre, then `(tx, ty)` added to the last column. -/
def makeAffine23 {α : Type} [Field α] (cosF sinF : α → α)
    (p : AffineParams α) (w h : Int) : Matrix (Fin 2) (Fin 3) α :=
  let cx : α := (w : α) * (1 / 2)
  let cy : α := (h : α) * (1 / 2)
  let R := getRotationMatrix2D cosF sinF cx cy p.thetaDeg p.scale
  !![R 0 0, R 0 1, R 0 2 + p.tx;
     R 1 0, R 1 1, R 1 2 + p.ty]

/-- The function `affineMatrix` of cv_geom.cpp. -/
def affineMatrix {α : Type} [Field α] (cosF sinF : α → α)
    (p : AffineParams α) (w h : Int) : Matrix (Fin 3) (Fin 3) α :=
  let cx : α := (w : α) * (1 / 2)
  let cy : α := (h : α) * (1 / 2)
  let rad := radOf p.thetaDeg
  let c := cosF rad * p.scale
  let s := sinF rad * p.scale
  !![c, -s, cx - c * cx + s * cy + p.tx;
     s, c, cy - s * cx - c * cy + p.ty;
     0, 0, 1]

/-- Rows 0 and 1 of a 3x3 matrix, as a 2x3 matrix. -/
def firstTwoRows {α : Type} (M : Matrix (Fin 3) (Fin 3) α) : Matrix (Fin 2) (Fin 3) α :=
  !![M 0 0, M 0 1, M 0 2;
     M 1 0, M 1 1, M 1 2]

/-- Determinant of the upper-left 2x2 block (the linear part) of a matrix with
at least two rows and three columns. -/
def linearDet {α : Type} [Field α] {n : Nat} (M : Matrix (Fin (n + 2)) (Fin 3) α) : α :=
  M 0 0 * M 1 1 - M 0 1 * M 1 0

/-! ## OpenCV data types and library routines used by cv_filters.cpp -/

/-- A pixel `cv::Vec3b` in (blue, green, red) order; each channel is a byte. -/
structure Vec3b where
  b : Nat
  g : Nat
  r : Nat
deriving DecidableEq

/-- A `cv::Mat` of type `CV_8UC3` (the only frame type this program creates):
its dimensions and the pixel at row `y`, column `x`. Only positions with
`y < rows` and `x < cols` belong to the image. -/
@[ext]
structure Mat where
  rows : Nat
  cols : Nat
  px : Nat → Nat → Vec3b

/-- A `cv::Mat` of type `CV_8UC1` (the gray image and the keep mask). -/
@[ext]
structure Mat1 where
  rows : Nat
  cols : Nat
  px : Nat → Nat → Nat

/-- The method `cv::Mat::empty()`: no rows or no columns. -/
def Mat.empty (m : Mat) : Bool := m.rows == 0 || m.cols == 0

/-- A `cv::Exception` thrown by a failed `CV_Assert` inside the library. -/
inductive CvException where
  | emptySource
  | emptySize
deriving DecidableEq

/-- The interpolation flags that cv_filters.cpp passes to `cv::resize`. -/
inductive InterpolationFlags where
  | INTER_NEAREST
  | INTER_LINEAR
deriving DecidableEq

/-- The number of halvings that bring `n` below 2, counted with at most
`fuel` steps. -/
def log2Fuel : Nat → Nat → Nat
  | 0, _ => 0
  | fuel + 1, n => if n < 2 then 0 else 1 + log2Fuel fuel (n / 2)

/-- The exponent of the largest power of two that is at most `n` (0 for `n = 0`). -/
def ilog2 (n : Nat) : Nat := log2Fuel n n

/-- The quotient `a / b` rounded to the nearest integer, ties to the even one. -/
def roundHalfEven (a b : Nat) : Nat :=
  let q := a / b
  let r := a % b
  if 2 * r < b then q else if b < 2 * r then q + 1 else if q % 2 = 0 then q else q + 1

/-- The IEEE double nearest to the rational `n / d` (round to nearest, ties to
even, 53-bit significand), as a numerator and a power-of-two denominator:
the quotient is scaled by a power of two into `[2 ^ 52, 2 ^ 53)`, rounded to
an integer and scaled back. The exponent range is not limited; the values
that `nearestIndex` rounds lie between `2 ^ -31` and `2 ^ 31`, far from
overflow and from subnormal numbers. -/
def roundDouble (n d : Nat) : Nat × Nat :=
  if n = 0 then (0, 1)
  else
    let up := 53 + ilog2 d
    let down0 := ilog2 n
    let down :=
      if 2 ^ 53 * (d * 2 ^ (down0 - up)) ≤ n * 2 ^ (up - down0) then down0 + 1 else down0
    let m := roundHalfEven (n * 2 ^ (up - down)) (d * 2 ^ (down - up))
    (m * 2 ^ (down - up), 2 ^ (up - down))

/-- Source index read by `cv::resize` with `INTER_NEAREST` for destination
index `d`, when an axis of length `src` is resized to length `dst`. The
library computes it in doubles: `fx = (double)dst / src`, `ifx = 1. / fx` and
the index `min(cvFloor(d * ifx), src - 1)`, each operation rounded to the
nearest double. Lengths and indices of a `cv::Mat` are C `int`s, so every
call of the program has its arguments below `2 ^ 31`; for larger arguments,
which no call can pass, the definition returns the exact quotient
`min(floor(d * src / dst), src - 1)`. -/
def nearestIndex (src dst d : Nat) : Nat :=
  if src < 2 ^ 31 ∧ dst < 2 ^ 31 ∧ d < 2 ^ 31 then
    let fx := roundDouble dst src
    let ifx := roundDouble fx.2 fx.1
    let p := roundDouble (d * ifx.1) ifx.2
    min (p.1 / p.2) (src - 1)
  else min (d * src / dst) (src - 1)

/-- An index clipped to `[0, n - 1]`. -/
def clipIndex (i : Int) (n : Nat) : Nat := min i.toNat (n - 1)

/-- The two source indices and the weight that `cv::resize` with
`INTER_LINEAR` uses along one axis: index `i1` has weight `w1 / den` and
index `i0` has weight `(den - w1) / den`. -/
structure LinearTap where
  i0 : Nat
  i1 : Nat
  w1 : Nat
  den : Nat

/-- Taps of `INTER_LINEAR` for destination index `d` when an axis of length
`src` is resized to length `dst` (library rule: the source coordinate is
`(d + 1/2) * src / dst - 1/2`, its floor and the next index are read,
clipped to the image, and weighted by the fractional part). The coordinate
is `num / den` with `num = (2 d + 1) * src - dst` and `den = 2 * dst`. -/
def linearTap (src dst d : Nat) : LinearTap :=
  let num : Int := (2 * (d : Int) + 1) * (src : Int) - (dst : Int)
  let den : Int := 2 * (dst : Int)
  { i0 := clipIndex (num / den) src
    i1 := clipIndex (num / den + 1) src
    w1 := (num % den).toNat
    den := 2 * dst }

/-- Bilinear blend of four channel values with the taps of both axes,
rounded to the nearest integer. -/
def lerp2 (tx ty : LinearTap) (p00 p01 p10 p11 : Nat) : Nat :=
  let s := (tx.den - tx.w1) * (ty.den - ty.w1) * p00 + tx.w1 * (ty.den - ty.w1) * p01
    + (tx.den - tx.w1) * ty.w1 * p10 + tx.w1 * ty.w1 * p11
  (2 * s + tx.den * ty.den) / (2 * (tx.den * ty.den))

/-- The pixel that `INTER_LINEAR` computes at destination `(y, x)`. -/
def linearPixel (src : Mat) (dw dh y x : Nat) : Vec3b :=
  let ty := linearTap src.rows dh y
  let tx := linearTap src.cols dw x
  let p00 := src.px ty.i0 tx.i0
  let p01 := src.px ty.i0 tx.i1
  let p10 := src.px ty.i1 tx.i0
  let p11 := src.px ty.i1 tx.i1
  { b := lerp2 tx ty p00.b p01.b p10.b p11.b
    g := lerp2 tx ty p00.g p01.g p10.g p11.g
    r := lerp2 tx ty p00.r p01.r p10.r p11.r }

/-- OpenCV library routine `cv::resize(src, dst, Size(dw, dh), 0, 0, flag)`,
written out from the library's documented sampling rules for the two flags
the program uses. It asserts that neither the source nor the requested size
is empty. The fixed-point quantisation of the bilinear weights inside the
library is not modelled: weights are exact and the result is rounded once.
The source index of `INTER_NEAREST` is computed in doubles, as the library
does (`nearestIndex`). -/
def resize (src : Mat) (dw dh : Nat) (interpolation : InterpolationFlags) :
    Except CvException Mat :=
  if src.empty then Except.error CvException.emptySource
  else if dw = 0 ∨ dh = 0 then Except.error CvException.emptySize
  else
    match interpolation with
    | InterpolationFlags.INTER_NEAREST =>
      Except.ok { rows := dh, cols := dw,
                  px := fun y x => src.px (nearestIndex src.rows dh y) (nearestIndex src.cols dw x) }
    | InterpolationFlags.INTER_LINEAR =>
      Except.ok { rows := dh, cols := dw, px := fun y x => linearPixel src dw dh y x }

/-- OpenCV library routine `cv::cvtColor(src, dst, COLOR_BGR2GRAY)`: a
per-pixel luminance map, taken as the parameter `lum`; the routine asserts
that the source is not empty. -/
def cvtColorBGR2GRAY (lum : Vec3b → Nat) (src : Mat) : Except CvException Mat1 :=
  if src.empty then Except.error CvException.emptySource
  else Except.ok { rows := src.rows, cols := src.cols, px := fun y x => lum (src.px y x) }

/-- OpenCV library routine `cv::cvtColor(src, dst, COLOR_GRAY2BGR)`: the gray
value replicated in the three channels; the routine asserts that the source
is not empty. -/
def cvtColorGRAY2BGR (src : Mat1) : Except CvException Mat :=
  if src.rows = 0 ∨ src.cols = 0 then Except.error CvException.emptySource
  else Except.ok { rows := src.rows, cols := src.cols,
                   px := fun y x => { b := src.px y x, g := src.px y x, r := src.px y x } }

/-- OpenCV method `src.copyTo(dst, mask)` for a destination that already has
the size of the source: pixels with a non-zero mask are taken from `src`,
the others keep the value of `dst`. -/
def copyToMasked (src dst : Mat) (mask : Mat1) : Mat :=
  { rows := dst.rows, cols := dst.cols,
    px := fun y x => if mask.px y x ≠ 0 then src.px y x else dst.px y x }

/-- The BT.601 luminance `0.299 R + 0.587 G + 0.114 B`, rounded: one concrete
luminance map, used to run the filters on concrete frames. -/
def lumBT601 (p : Vec3b) : Nat := (299 * p.r + 587 * p.g + 114 * p.b + 500) / 1000

/-! ## cv_filters.hpp / cv_filters.cpp -/

/-- The `enum class FilterType` of cv_filters.hpp. -/
inductive FilterType where
  | None
  | Pixelate
  | SinCity
deriving DecidableEq

/-- The `struct FilterParams` of cv_filters.hpp. -/
structure FilterParams where
  pixelBlock : Int
  keepBGR : Vec3b
  thresh : Int

/-- The default member initialisers of `FilterParams`
(`pixelBlock = 8`, `keepBGR = {20, 20, 200}`, `thresh = 60`). -/
def FilterParams.init : FilterParams :=
  { pixelBlock := 8, keepBGR := { b := 20, g := 20, r := 200 }, thresh := 60 }

/-- The function `pixelateCPU` of cv_filters.cpp. -/
def pixelateCPU (img : Mat) (block : Int) : Except CvException Mat :=
  if img.empty ∨ block ≤ 1 then Except.ok img
  else
    let b : Int := max 2 block
    let sx : Int := max 1 ((img.cols : Int) / b)
    let sy : Int := max 1 ((img.rows : Int) / b)
    match resize img sx.toNat sy.toNat InterpolationFlags.INTER_LINEAR with
    | Except.error e => Except.error e
    | Except.ok small => resize small img.cols img.rows InterpolationFlags.INTER_NEAREST

/-- The integer `db * db + dg * dg + dr * dr` of `sinCityCPU`. -/
def sqDistance (p keepBGR : Vec3b) : Int :=
  let db : Int := (p.b : Int) - (keepBGR.b : Int)
  let dg : Int := (p.g : Int) - (keepBGR.g : Int)
  let dr : Int := (p.r : Int) - (keepBGR.r : Int)
  db * db + dg * dg + dr * dr

/-- The distance `d` of `sinCityCPU`:
`int(std::sqrt(double(db * db + dg * dg + dr * dr)))`. The argument is an
integer below `2 ^ 18`, for which the truncated double-precision square root
is the integer square root. -/
def colorDistance (p keepBGR : Vec3b) : Int :=
  ((Nat.sqrt (sqDistance p keepBGR).toNat : Nat) : Int)

/-- The function `sinCityCPU` of cv_filters.cpp. The assertion
`img.channels() == 3` holds for every `Mat` of this embedding. -/
def sinCityCPU (lum : Vec3b → Nat) (img : Mat) (keepBGR : Vec3b) (thresh : Int) :
    Except CvException Mat :=
  match cvtColorBGR2GRAY lum img with
  | Except.error e => Except.error e
  | Except.ok gray =>
    match cvtColorGRAY2BGR gray with
    | Except.error e => Except.error e
    | Except.ok bw =>
      let keep : Mat1 :=
        { rows := img.rows, cols := img.cols,
          px := fun y x => if colorDistance (img.px y x) keepBGR ≤ thresh then 255 else 0 }
      Except.ok (copyToMasked img bw keep)

/-- The mask `keep` that `sinCityCPU` fills: 255 where the pixel is kept and
0 elsewhere. -/
def keepMask (img : Mat) (keepBGR : Vec3b) (thresh : Int) : Mat1 :=
  { rows := img.rows, cols := img.cols,
    px := fun y x => if colorDistance (img.px y x) keepBGR ≤ thresh then 255 else 0 }

/-- The function `applyCpuFilter` of cv_filters.cpp. -/
def applyCpuFilter (lum : Vec3b → Nat) (img : Mat) (type : FilterType)
    (params : FilterParams) : Except CvException Mat :=
  match type with
  | FilterType.None => Except.ok img
  | FilterType.Pixelate => pixelateCPU img params.pixelBlock
  | FilterType.SinCity => sinCityCPU lum img params.keepBGR params.thresh

/-! ## The Pixelate filter as the specification words it -/

/-- Length of the overlap of source cell `i` with the footprint of
destination cell `d`, in units of `1 / dst` of a source pixel, when an axis
of length `src` is shrunk to length `dst`. -/
def areaOverlap (src dst d i : Nat) : Nat :=
  min ((i + 1) * dst) ((d + 1) * src) - max (i * dst) (d * src)

/-- Area average of one channel `f` over the footprint of destination pixel
`(y, x)`, rounded to the nearest integer. -/
def areaChannel (f : Nat → Nat → Nat) (sw sh dw dh y x : Nat) : Nat :=
  let s := ((List.range sh).map fun j =>
    ((List.range sw).map fun i => areaOverlap sh dh y j * areaOverlap sw dw x i * f j i).sum).sum
  (2 * s + sw * sh) / (2 * (sw * sh))

/-- Area-averaging downsample to `dw x dh`: the downsampling step that the
specification describes for Pixelate. The source does not call it. -/
def resizeArea (src : Mat) (dw dh : Nat) : Mat :=
  { rows := dh, cols := dw,
    px := fun y x =>
      { b := areaChannel (fun j i => (src.px j i).b) src.cols src.rows dw dh y x
        g := areaChannel (fun j i => (src.px j i).g) src.cols src.rows dw dh y x
        r := areaChannel (fun j i => (src.px j i).r) src.cols src.rows dw dh y x } }

/-- Pixelate as the specification words it: area-averaging downsample to
`max(1, w / b) x max(1, h / b)`, then nearest-neighbour upsample to `w x h`. -/
def pixelateSpec (img : Mat) (b : Nat) : Mat :=
  let sx := max 1 (img.cols / b)
  let sy := max 1 (img.rows / b)
  let small := resizeArea img sx sy
  { rows := img.rows, cols := img.cols,
    px := fun y x => small.px (nearestIndex sy img.rows y) (nearestIndex sx img.cols x) }

/-- A frame given by its rows; positions outside the lists are black. -/
def Mat.ofRows (w : Nat) (data : List (List Vec3b)) : Mat :=
  { rows := data.length, cols := w,
    px := fun y x => (data.getD y []).getD x { b := 0, g := 0, r := 0 } }

/-- The in-range pixels of a frame, row by row. -/
def Mat.toRows (m : Mat) : List (List Vec3b) :=
  (List.range m.rows).map fun y => (List.range m.cols).map fun x => m.px y x

/-- A `w x h` frame with a colour gradient, used to run the filters on a
concrete input. -/
def gradientFrame (w h : Nat) : Mat :=
  { rows := h, cols := w, px := fun y x => { b := x % 256, g := y % 256, r := (x + y) % 256 } }

/-- A `w x h` frame whose pixels all have the colour `c`. -/
def uniformFrame (w h : Nat) (c : Vec3b) : Mat :=
  { rows := h, cols := w, px := fun _ _ => c }

/-! ## cv_geom.cpp: the CPU warp -/

/-- OpenCV library routine `cv::invertAffineTransform`, as `cv::warpAffine`
applies it to a forward matrix: with `D` the determinant of the linear part,
the factor is `1 / D`, or `0` when `D = 0`. -/
def invertAffineTransform {α : Type} [LinearOrderedField α]
    (M : Matrix (Fin 2) (Fin 3) α) : Matrix (Fin 2) (Fin 3) α :=
  let D := M 0 0 * M 1 1 - M 0 1 * M 1 0
  let D1 : α := if D ≠ 0 then 1 / D else 0
  let A11 := M 1 1 * D1
  let A22 := M 0 0 * D1
  let A12 := -M 0 1 * D1
  let A21 := -M 1 0 * D1
  let b1 := -A11 * M 0 2 - A12 * M 1 2
  let b2 := -A21 * M 0 2 - A22 * M 1 2
  !![A11, A12, b1;
     A21, A22, b2]

/-- The source pixel at integer position `(y, x)` under `BORDER_CONSTANT`
with `Scalar(0, 0, 0)`: positions outside the image are black. -/
def borderPx (src : Mat) (y x : Int) : Vec3b :=
  if 0 ≤ x ∧ x < (src.cols : Int) ∧ 0 ≤ y ∧ y < (src.rows : Int) then src.px y.toNat x.toNat
  else { b := 0, g := 0, r := 0 }

/-- Bilinear blend of four channel values with fractional offsets `fx`, `fy`,
rounded to the nearest integer. -/
def bilinearChannel {α : Type} [LinearOrderedField α] [FloorRing α]
    (fx fy : α) (p00 p01 p10 p11 : Nat) : Nat :=
  (⌊(1 - fy) * ((1 - fx) * (p00 : α) + fx * (p01 : α))
      + fy * ((1 - fx) * (p10 : α) + fx * (p11 : α)) + 1 / 2⌋).toNat

/-- The pixel that `cv::warpAffine` with `INTER_LINEAR` and `BORDER_CONSTANT`
computes at destination `(y, x)` from the inverse map `A`: the source
position is `(A11 x + A12 y + b1, A21 x + A22 y + b2)`. -/
def warpPixel {α : Type} [LinearOrderedField α] [FloorRing α]
    (src : Mat) (A : Matrix (Fin 2) (Fin 3) α) (y x : Nat) : Vec3b :=
  let X : α := A 0 0 * (x : α) + A 0 1 * (y : α) + A 0 2
  let Y : α := A 1 0 * (x : α) + A 1 1 * (y : α) + A 1 2
  let x0 : Int := ⌊X⌋
  let y0 : Int := ⌊Y⌋
  let fx : α := X - (x0 : α)
  let fy : α := Y - (y0 : α)
  let p00 := borderPx src y0 x0
  let p01 := borderPx src y0 (x0 + 1)
  let p10 := borderPx src (y0 + 1) x0
  let p11 := borderPx src (y0 + 1) (x0 + 1)
  { b := bilinearChannel fx fy p00.b p01.b p10.b p11.b
    g := bilinearChannel fx fy p00.g p01.g p10.g p11.g
    r := bilinearChannel fx fy p00.r p01.r p10.r p11.r }

/-- OpenCV library routine
`cv::warpAffine(src, dst, M, dsize, INTER_LINEAR, BORDER_CONSTANT, Scalar(0,0,0))`,
written out from the library's documented rule: it asserts
`src.cols > 0 && src.rows > 0`, inverts the forward matrix `M` and samples the
source bilinearly. The fixed-point quantisation of the coordinates inside the
library is not modelled. -/
def warpAffine {α : Type} [LinearOrderedField α] [FloorRing α]
    (src : Mat) (M : Matrix (Fin 2) (Fin 3) α) (dw dh : Nat) : Except CvException Mat :=
  if src.empty then Except.error CvException.emptySource
  else Except.ok { rows := dh, cols := dw,
                   px := fun y x => warpPixel src (invertAffineTransform M) y x }

/-- The function `warpCpuAffine` of cv_geom.cpp. -/
def warpCpuAffine {α : Type} [LinearOrderedField α] [FloorRing α] (cosF sinF : α → α)
    (img : Mat) (p : AffineParams α) : Except CvException Mat :=
  if p.scale = 1 ∧ |p.thetaDeg| < 1 / 10000 ∧ |p.tx| < 1 / 10000 ∧ |p.ty| < 1 / 10000 then
    Except.ok img
  else
    let A := makeAffine23 cosF sinF p (img.cols : Int) (img.rows : Int)
    warpAffine img A img.cols img.rows

/-- An empty frame (`0 x 0`, type `CV_8UC3`). -/
def emptyFrame : Mat :=
  { rows := 0, cols := 0, px := fun _ _ => { b := 0, g := 0, r := 0 } }

/-- Stand-ins for `std::cos` and `std::sin` over the rationals (second-order
Taylor polynomials), used to run the geometry on concrete inputs. -/
def cosQ (x : ℚ) : ℚ := 1 - x * x / 2

/-- See `cosQ`. -/
def sinQ (x : ℚ) : ℚ := x - x * x * x / 6

/-- A `w x h` frame that is black at position `(0, 0)` and white elsewhere. -/
def cornerFrame (w h : Nat) : Mat :=
  { rows := h, cols := w,
    px := fun y x => if y = 0 ∧ x = 0 then { b := 0, g := 0, r := 0 }
                     else { b := 255, g := 255, r := 255 } }

/-! ## gpu_pipeline.cpp: the uniforms of one draw call -/

/-- The uniform locations that `GpuPipeline::init` resolves (a negative value
means the program has no such uniform), and the location of `uAffine` in the
pass-through program, which `draw` looks up itself. -/
structure GpuPipeline where
  loc_uTex_pass_ : Int
  loc_uAff_pass : Int
  loc_uTex_pix_ : Int
  loc_uTexSize_pix_ : Int
  loc_uBlock_pix_ : Int
  loc_uAff_pix_ : Int
  loc_uTex_sc_ : Int
  loc_uKeep_sc_ : Int
  loc_uThresh_sc_ : Int
  loc_uAff_sc_ : Int

/-- What one draw call hands to the shader: the selected program (named by
its filter, `None` being the pass-through program) and the value written to
each uniform, `none` when the uniform is not written. The matrix is kept as a
mathematical matrix; `toGLM` only refills it in column-major storage. -/
structure DrawCall (α : Type) where
  prog : FilterType
  uTex : Option Int
  uAffine : Option (Matrix (Fin 3) (Fin 3) α)
  uTexSize : Option (α × α)
  uBlock : Option α
  uKeepColor : Option (α × α × α)
  uThresh : Option α

/-- The method `GpuPipeline::draw` of gpu_pipeline.cpp, as far as the shader
program and its uniforms are concerned. -/
def GpuPipeline.draw {α : Type} [Field α] (gpu : GpuPipeline) (cosF sinF : α → α)
    (texW texH : Int) (filter : FilterType) (fp : FilterParams) (ap : AffineParams α) :
    DrawCall α :=
  let M := affineMatrix cosF sinF ap texW texH
  match filter with
  | FilterType.None =>
    { prog := FilterType.None
      uTex := if gpu.loc_uTex_pass_ ≥ 0 then some 0 else none
      uAffine := if gpu.loc_uAff_pass ≥ 0 then some M else none
      uTexSize := none, uBlock := none, uKeepColor := none, uThresh := none }
  | FilterType.Pixelate =>
    { prog := FilterType.Pixelate
      uTex := if gpu.loc_uTex_pix_ ≥ 0 then some 0 else none
      uTexSize := if gpu.loc_uTexSize_pix_ ≥ 0 then some ((texW : α), (texH : α)) else none
      uBlock := if gpu.loc_uBlock_pix_ ≥ 0 then some ((max 1 fp.pixelBlock : Int) : α) else none
      uAffine := if gpu.loc_uAff_pix_ ≥ 0 then some M else none
      uKeepColor := none, uThresh := none }
  | FilterType.SinCity =>
    { prog := FilterType.SinCity
      uTex := if gpu.loc_uTex_sc_ ≥ 0 then some 0 else none
      uKeepColor :=
        if gpu.loc_uKeep_sc_ ≥ 0 then
          some ((fp.keepBGR.r : α) / 255, (fp.keepBGR.g : α) / 255, (fp.keepBGR.b : α) / 255)
        else none
      uThresh := if gpu.loc_uThresh_sc_ ≥ 0 then some ((fp.thresh : α) / 255) else none
      uAffine := if gpu.loc_uAff_sc_ ≥ 0 then some M else none
      uTexSize := none, uBlock := none }

/-- A pipeline whose programs have every uniform. -/
def GpuPipeline.allResolved : GpuPipeline :=
  { loc_uTex_pass_ := 0, loc_uAff_pass := 1, loc_uTex_pix_ := 0, loc_uTexSize_pix_ := 1,
    loc_uBlock_pix_ := 2, loc_uAff_pix_ := 3, loc_uTex_sc_ := 0, loc_uKeep_sc_ := 1,
    loc_uThresh_sc_ := 2, loc_uAff_sc_ := 3 }

/-! ## main.cpp / interactive.cpp: processing and display of one frame -/

/-- What one tick of the render loop produces: the frame uploaded to the
texture and the draw call that displays it. -/
structure TickRender (α : Type) where
  texture : Mat
  call : DrawCall α

/-- The body shared by the loop of `run_one_combo` (main.cpp, "CPU / GPU
processing paths" and "Render") and the loop of `interactive_mode`
(interactive.cpp, "Upload and process" and "Main frame rendering"). In the
CPU path the frame is warped and filtered, uploaded, and displayed by the
pass-through program; in the GPU path the raw frame is uploaded and
`GpuPipeline::draw` displays it. -/
def renderTick {α : Type} [LinearOrderedField α] [FloorRing α] (cosF sinF : α → α)
    (lum : Vec3b → Nat) (gpu : GpuPipeline) (loc_uTex loc_uAff : Int)
    (frame : Mat) (texW texH : Int) (filter : FilterType) (fp : FilterParams)
    (useGPU useTransform : Bool) (ap : AffineParams α) : Except CvException (TickRender α) :=
  if useGPU then
    Except.ok
      { texture := frame
        call := gpu.draw cosF sinF texW texH filter fp
                  (if useTransform then ap else AffineParams.init) }
  else
    match (if useTransform then warpCpuAffine cosF sinF frame ap else Except.ok frame) with
    | Except.error e => Except.error e
    | Except.ok warped =>
      match applyCpuFilter lum warped filter fp with
      | Except.error e => Except.error e
      | Except.ok img =>
        let M := affineMatrix cosF sinF (if useTransform then ap else AffineParams.init) texW texH
        Except.ok
          { texture := img
            call :=
              { prog := FilterType.None
                uTex := if loc_uTex ≥ 0 then some 0 else none
                uAffine := if loc_uAff ≥ 0 then some M else none
                uTexSize := none, uBlock := none, uKeepColor := none, uThresh := none } }

/-! ## main.cpp: the benchmark driver -/

/-- The `struct BenchResultRow` of main.cpp. -/
structure BenchResultRow (α : Type) where
  mode : String
  filter : String
  transform : String
  resolution : String
  build : String
  avg_fps : α
  min_fps : α
  max_fps : α
  std_fps : α
  samples : Int

/-- The function `filterName` of cv_filters.cpp. -/
def filterName (t : FilterType) : String :=
  match t with
  | FilterType.None => "None"
  | FilterType.Pixelate => "Pixelate"
  | FilterType.SinCity => "SinCity"

/-- The call `std::accumulate(v.begin(), v.end(), 0.0)`. -/
def accumulate {α : Type} [Field α] (v : List α) : α := v.foldl (fun acc x => acc + x) 0

/-- The function `mean` of main.cpp. -/
def mean {α : Type} [Field α] (v : List α) : α :=
  if v.isEmpty then 0 else accumulate v / (v.length : α)

/-- The function `stdev` of main.cpp; `sqrtF` stands for `std::sqrt`. -/
def stdev {α : Type} [Field α] (sqrtF : α → α) (v : List α) : α :=
  if v.length < 2 then 0
  else
    let m := mean v
    let acc := v.foldl (fun acc x => acc + (x - m) * (x - m)) 0
    sqrtF (acc / ((v.length - 1 : Nat) : α))

/-- The value `*std::min_element(first, last)` of a range that starts with
`x`: the running minimum is replaced when an element is smaller. -/
def minElement {α : Type} [LinearOrderedField α] (x : α) (xs : List α) : α :=
  xs.foldl (fun m y => if y < m then y else m) x

/-- The value `*std::max_element(first, last)` of a range that starts with
`x`: the running maximum is replaced when it is smaller than an element. -/
def maxElement {α : Type} [LinearOrderedField α] (x : α) (xs : List α) : α :=
  xs.foldl (fun m y => if m < y then y else m) x

/-- The block "Collect results" of `run_one_combo`: the row built from the
configuration and the collected samples. -/
def collectResults {α : Type} [LinearOrderedField α] (sqrtF : α → α)
    (texW texH : Int) (build : String) (filter : FilterType) (useGPU useTransform : Bool)
    (fps_samples : List α) : BenchResultRow α :=
  { mode := if useGPU then "GPU" else "CPU"
    filter := filterName filter
    transform := if useTransform then "On" else "Off"
    resolution := toString texW ++ "x" ++ toString texH
    build := build
    avg_fps := mean fps_samples
    min_fps := match fps_samples with
      | [] => 0
      | x :: xs => minElement x xs
    max_fps := match fps_samples with
      | [] => 0
      | x :: xs => maxElement x xs
    std_fps := stdev sqrtF fps_samples
    samples := (fps_samples.length : Int) }

/-- What the environment delivers during one iteration of the render loop of
`run_one_combo`: whether `glfwPollEvents` sets the window's close flag, the
interval `dt = now - last`, and the two readings of `elapsed_sec()`. -/
structure Tick (α : Type) where
  closeRequested : Bool
  dt : α
  elapsedAtSample : α
  elapsedAtExit : α

/-- The render loop of `run_one_combo`, as far as `fps_samples` and the
window's close flag are concerned; the frame processing of each iteration is
`renderTick`, which does not touch either. The loop consumes the ticks the
environment delivers and returns the samples and the close flag. -/
def sampleLoop {α : Type} [LinearOrderedField α] (warmup_sec sample_sec : Int) :
    Bool → List (Tick α) → List α → List α × Bool
  | closed, [], fps_samples => (fps_samples, closed)
  | closed, t :: ts, fps_samples =>
    if closed then (fps_samples, closed)
    else
      let fps1 :=
        if t.dt > 0 then
          (if t.elapsedAtSample > (warmup_sec : α) then fps_samples ++ [1 / t.dt]
           else fps_samples)
        else fps_samples
      if t.elapsedAtExit > ((warmup_sec + sample_sec : Int) : α) then (fps1, t.closeRequested)
      else sampleLoop warmup_sec sample_sec t.closeRequested ts fps1

/-- The ticks whose loop body `run_one_combo` executes: the loop stops before
a tick when the close flag is set, and after a tick whose exit test
`elapsed_sec() > warmup_sec + sample_sec` succeeds. -/
def renderedTicks {α : Type} [LinearOrderedField α] (warmup_sec sample_sec : Int) :
    Bool → List (Tick α) → List (Tick α)
  | _, [] => []
  | closed, t :: ts =>
    if closed then []
    else if t.elapsedAtExit > ((warmup_sec + sample_sec : Int) : α) then [t]
    else t :: renderedTicks warmup_sec sample_sec t.closeRequested ts

/-- The function `run_one_combo` of main.cpp: the result row, and the window's
close flag when it returns. -/
def run_one_combo {α : Type} [LinearOrderedField α] (sqrtF : α → α)
    (closed : Bool) (ticks : List (Tick α)) (reqRes : Int × Int) (build : String)
    (filter : FilterType) (useGPU useTransform : Bool) (warmup_sec sample_sec : Int) :
    BenchResultRow α × Bool :=
  let run := sampleLoop warmup_sec sample_sec closed ticks []
  (collectResults sqrtF reqRes.1 reqRes.2 build filter useGPU useTransform run.1, run.2)

/-- The function `write_summary_csv` of main.cpp: the text written to the
file; `fmt` stands for the stream output of a `double`. -/
def write_summary_csv {α : Type} (fmt : α → String) (rows : List (BenchResultRow α)) : String :=
  rows.foldl
    (fun f r =>
      f ++ r.mode ++ "," ++ r.filter ++ "," ++ r.transform ++ ","
        ++ r.resolution ++ "," ++ r.build ++ ","
        ++ fmt r.avg_fps ++ "," ++ fmt r.min_fps ++ "," ++ fmt r.max_fps ++ ","
        ++ fmt r.std_fps ++ "," ++ toString r.samples ++ "\n")
    "mode,filter,transform,resolution,build,avg_fps,min_fps,max_fps,std_fps,samples\n"

/-- The vector `resolutions` of `run_benchmark_mode`. -/
def resolutions : List (Int × Int) := [(640, 480), (1280, 720), (1920, 1080)]

/-- The vector `filters` of `run_benchmark_mode`. -/
def filters : List FilterType := [FilterType.None, FilterType.Pixelate, FilterType.SinCity]

/-- The vector `transforms` of `run_benchmark_mode`. -/
def transforms : List Bool := [false, true]

/-- The vector `modes` of `run_benchmark_mode` (`false` is CPU, `true` is GPU). -/
def modes : List Bool := [false, true]

/-- The state of the loop nest of `run_benchmark_mode`: the rows pushed so far
and the window's close flag. -/
structure BenchState (α : Type) where
  results : List (BenchResultRow α)
  closed : Bool

/-- The body of the innermost loop of `run_benchmark_mode`: one call of
`run_one_combo` with `warmup_sec = 1` and `sample_sec = 5`, and
`results.push_back(row)`. The ticks of the `n`-th call are `env n`. -/
def benchStep {α : Type} [LinearOrderedField α] (sqrtF : α → α) (build : String)
    (env : Nat → List (Tick α)) (st : BenchState α)
    (useGPU : Bool) (f : FilterType) (t : Bool) (r : Int × Int) : BenchState α :=
  let out := run_one_combo sqrtF st.closed (env st.results.length) r build f useGPU t 1 5
  { results := st.results ++ [out.1], closed := out.2 }

/-- The loop nest of `run_benchmark_mode` after a successful initialisation. -/
def benchLoops {α : Type} [LinearOrderedField α] (sqrtF : α → α) (build : String)
    (env : Nat → List (Tick α)) : BenchState α :=
  modes.foldl
    (fun st useGPU =>
      filters.foldl
        (fun st f =>
          transforms.foldl
            (fun st t =>
              resolutions.foldl (fun st r => benchStep sqrtF build env st useGPU f t r) st)
            st)
        st)
    { results := [], closed := false }

/-- The function `run_benchmark_mode` of main.cpp after a successful
initialisation: the vector `results` and the text of the CSV report. -/
def run_benchmark_mode {α : Type} [LinearOrderedField α] (sqrtF : α → α) (fmt : α → String)
    (build : String) (env : Nat → List (Tick α)) : List (BenchResultRow α) × String :=
  ((benchLoops sqrtF build env).results,
    write_summary_csv fmt (benchLoops sqrtF build env).results)

/-- The configurations in the order in which the loop nest of
`run_benchmark_mode` visits them: mode, filter, transform, resolution. -/
def configs : List (Bool × FilterType × Bool × (Int × Int)) :=
  modes.flatMap fun useGPU =>
    filters.flatMap fun f =>
      transforms.flatMap fun t =>
        resolutions.map fun r => (useGPU, f, t, r)

/-- The four descriptive fields that `run_one_combo` writes for a
configuration. -/
def describe (c : Bool × FilterType × Bool × (Int × Int)) : String × String × String × String :=
  (if c.1 then "GPU" else "CPU", filterName c.2.1, if c.2.2.1 then "On" else "Off",
    toString c.2.2.2.1 ++ "x" ++ toString c.2.2.2.2)

/-- The four descriptive fields of a result row. -/
def BenchResultRow.descriptor {α : Type} (row : BenchResultRow α) :
    String × String × String × String :=
  (row.mode, row.filter, row.transform, row.resolution)

/-- A result row without samples: all five statistics are 0. -/
def BenchResultRow.IsZero (row : BenchResultRow ℝ) : Prop :=
  row.samples = 0 ∧ row.avg_fps = 0 ∧ row.min_fps = 0 ∧ row.max_fps = 0 ∧ row.std_fps = 0

/-- The state of the loop nest of `run_benchmark_mode` after its first `k`
calls of `run_one_combo`. -/
def benchPrefix {α : Type} [LinearOrderedField α] (sqrtF : α → α) (build : String)
    (env : Nat → List (Tick α)) (k : Nat) : BenchState α :=
  (configs.take k).foldl (fun st c => benchStep sqrtF build env st c.1 c.2.1 c.2.2.1 c.2.2.2)
    { results := [], closed := false }

/-- One line of the CSV report: the ten fields of a row separated by commas. -/
def csvLine {α : Type} (fmt : α → String) (r : BenchResultRow α) : String :=
  String.intercalate ","
    [r.mode, r.filter, r.transform, r.resolution, r.build, fmt r.avg_fps, fmt r.min_fps,
      fmt r.max_fps, fmt r.std_fps, toString r.samples] ++ "\n"

/-- A tick environment in which the window is closed during the first tick of
every call (so the close flag is set during the first configuration). -/
def closingEnv {α : Type} [Field α] : Nat → List (Tick α) :=
  fun _ => [{ closeRequested := true, dt := 1 / 100, elapsedAtSample := 2, elapsedAtExit := 2 }]

/-! ## interactive.cpp: key handling -/

/-- The keys that the loop of `interactive_mode` polls, pressed or not. -/
structure Keys where
  G : Bool
  T : Bool
  K1 : Bool
  K2 : Bool
  K3 : Bool
  LEFT : Bool
  RIGHT : Bool
  UP : Bool
  DOWN : Bool
  Q : Bool
  E : Bool
  MINUS : Bool
  EQUAL : Bool
  Z : Bool
  X : Bool
  C : Bool
  V : Bool

/-- The state variables of `interactive_mode`. -/
structure InteractiveState (α : Type) where
  useGPU : Bool
  useTransform : Bool
  curF : FilterType
  fp : FilterParams
  ap : AffineParams α
  lockG : Bool
  lockT : Bool
  lock1 : Bool
  lock2 : Bool
  lock3 : Bool

/-- The initial values of the state variables of `interactive_mode`. -/
def InteractiveState.init {α : Type} [Field α] : InteractiveState α :=
  { useGPU := true, useTransform := true, curF := FilterType.Pixelate
    fp := { pixelBlock := 8, keepBGR := { b := 20, g := 20, r := 200 }, thresh := 60 }
    ap := { tx := 0, ty := 0, scale := 1, thetaDeg := 0 }
    lockG := false, lockT := false, lock1 := false, lock2 := false, lock3 := false }

/-- The toggle switch of key G (CPU or GPU), with its lock. -/
def handleKeyG {α : Type} (k : Keys) (s : InteractiveState α) : InteractiveState α :=
  if k.G then (if !s.lockG then { s with useGPU := !s.useGPU, lockG := true } else s)
  else { s with lockG := false }

/-- The toggle switch of key T (transform on or off), with its lock. -/
def handleKeyT {α : Type} (k : Keys) (s : InteractiveState α) : InteractiveState α :=
  if k.T then (if !s.lockT then { s with useTransform := !s.useTransform, lockT := true } else s)
  else { s with lockT := false }

/-- The switch of key 1 (filter None), with its lock. -/
def handleKey1 {α : Type} (k : Keys) (s : InteractiveState α) : InteractiveState α :=
  if k.K1 then (if !s.lock1 then { s with curF := FilterType.None, lock1 := true } else s)
  else { s with lock1 := false }

/-- The switch of key 2 (filter Pixelate), with its lock. -/
def handleKey2 {α : Type} (k : Keys) (s : InteractiveState α) : InteractiveState α :=
  if k.K2 then (if !s.lock2 then { s with curF := FilterType.Pixelate, lock2 := true } else s)
  else { s with lock2 := false }

/-- The switch of key 3 (filter SinCity), with its lock. -/
def handleKey3 {α : Type} (k : Keys) (s : InteractiveState α) : InteractiveState α :=
  if k.K3 then (if !s.lock3 then { s with curF := FilterType.SinCity, lock3 := true } else s)
  else { s with lock3 := false }

/-- The toggle switches of the key handling of `interactive_mode`, in the
order of the source. -/
def handleToggles {α : Type} (k : Keys) (s : InteractiveState α) : InteractiveState α :=
  handleKey3 k (handleKey2 k (handleKey1 k (handleKeyT k (handleKeyG k s))))

/-- The translation, rotation and scaling controls of `interactive_mode`
(`tStep = 5`, `rStep = 0.6`, `sStep = 0.02`). -/
def handleAffineKeys {α : Type} [LinearOrderedField α] (k : Keys) (ap : AffineParams α) :
    AffineParams α :=
  let ap := if k.LEFT then { ap with tx := ap.tx - 5 } else ap
  let ap := if k.RIGHT then { ap with tx := ap.tx + 5 } else ap
  let ap := if k.UP then { ap with ty := ap.ty - 5 } else ap
  let ap := if k.DOWN then { ap with ty := ap.ty + 5 } else ap
  let ap := if k.Q then { ap with thetaDeg := ap.thetaDeg - 3 / 5 } else ap
  let ap := if k.E then { ap with thetaDeg := ap.thetaDeg + 3 / 5 } else ap
  let ap := if k.MINUS then { ap with scale := max (1 / 10) (ap.scale - 1 / 50) } else ap
  let ap := if k.EQUAL then { ap with scale := ap.scale + 1 / 50 } else ap
  ap

/-- The filter parameter adjustment of `interactive_mode`. -/
def handleFilterKeys (k : Keys) (fp : FilterParams) : FilterParams :=
  let fp := if k.Z then { fp with pixelBlock := max 2 (fp.pixelBlock - 1) } else fp
  let fp := if k.X then { fp with pixelBlock := min 100 (fp.pixelBlock + 1) } else fp
  let fp := if k.C then { fp with thresh := max 0 (fp.thresh - 1) } else fp
  let fp := if k.V then { fp with thresh := min 255 (fp.thresh + 1) } else fp
  fp

/-- The key handling of one iteration of the loop of `interactive_mode`. -/
def handleKeys {α : Type} [LinearOrderedField α] (k : Keys) (s : InteractiveState α) :
    InteractiveState α :=
  let s := handleToggles k s
  { s with ap := handleAffineKeys k s.ap, fp := handleFilterKeys k s.fp }

/-- The state of `interactive_mode` after the key handling of each of the
given iterations, starting from the initial state. -/
def interactiveRun {α : Type} [LinearOrderedField α] (ks : List Keys) : InteractiveState α :=
  ks.foldl (fun s k => handleKeys k s) InteractiveState.init

/-! ## Theorems: affine matrix -/

/-- C1: with the identity configuration (`tx = 0`, `ty = 0`, `scale = 1`,
`thetaDeg = 0`) `affineMatrix` returns the 3x3 identity matrix, whatever the
width and height. -/
theorem affineMatrix_identity (w h : Int) :
    affineMatrix Real.cos Real.sin (⟨0, 0, 1, 0⟩ : AffineParams ℝ) w h = 1 := by
  ext i j
  fin_cases i <;> fin_cases j <;> simp [affineMatrix, radOf, Matrix.vecHead, Matrix.vecTail]

/-- Entries of `affineMatrix`, one simp set for the proofs below. -/
theorem affineMatrix_entries {α : Type} [Field α] (cosF sinF : α → α)
    (p : AffineParams α) (w h : Int) :
    affineMatrix cosF sinF p w h 0 0 = cosF (radOf p.thetaDeg) * p.scale ∧
    affineMatrix cosF sinF p w h 0 1 = -(sinF (radOf p.thetaDeg) * p.scale) ∧
    affineMatrix cosF sinF p w h 1 0 = sinF (radOf p.thetaDeg) * p.scale ∧
    affineMatrix cosF sinF p w h 1 1 = cosF (radOf p.thetaDeg) * p.scale := by
  simp [affineMatrix]

/-- Entries of the linear part of `makeAffine23`. -/
theorem makeAffine23_entries {α : Type} [Field α] (cosF sinF : α → α)
    (p : AffineParams α) (w h : Int) :
    makeAffine23 cosF sinF p w h 0 0 = cosF (p.thetaDeg * (CV_PI / 180)) * p.scale ∧
    makeAffine23 cosF sinF p w h 0 1 = sinF (p.thetaDeg * (CV_PI / 180)) * p.scale ∧
    makeAffine23 cosF sinF p w h 1 0 = -(sinF (p.thetaDeg * (CV_PI / 180)) * p.scale) ∧
    makeAffine23 cosF sinF p w h 1 1 = cosF (p.thetaDeg * (CV_PI / 180)) * p.scale := by
  simp [makeAffine23, getRotationMatrix2D]

/-- The angle that `affineMatrix` computes for 8 degrees lies in `(0, π)`. -/
theorem radOf_eight_mem : 0 < radOf (8 : ℝ) ∧ radOf (8 : ℝ) < Real.pi := by
  have h3 := Real.pi_gt_three
  constructor
  · norm_num [radOf, piLiteral]
  · have : radOf (8 : ℝ) < 3 := by norm_num [radOf, piLiteral]
    linarith

/-- The angle that `getRotationMatrix2D` computes for 8 degrees lies in `(0, π)`. -/
theorem cvAngle_eight_mem :
    0 < (8 : ℝ) * (CV_PI / 180) ∧ (8 : ℝ) * (CV_PI / 180) < Real.pi := by
  have h3 := Real.pi_gt_three
  constructor
  · norm_num [CV_PI]
  · have : (8 : ℝ) * (CV_PI / 180) < 3 := by norm_num [CV_PI]
    linarith

/-- C2 (evaluation at the failing input): for the benchmark's parameters
(`tx = 60`, `ty = 40`, `scale = 1.15`, `thetaDeg = 8`) on a 640x480 frame,
entry (0,1) of `affineMatrix` is negative while entry (0,1) of `makeAffine23`
is positive, so the first two rows of the matrix handed to the shader are not
the matrix handed to the CPU warp. -/
theorem affineMatrix_rows_ne_makeAffine23 :
    affineMatrix Real.cos Real.sin (⟨60, 40, 23 / 20, 8⟩ : AffineParams ℝ) 640 480 0 1 < 0 ∧
    0 < makeAffine23 Real.cos Real.sin (⟨60, 40, 23 / 20, 8⟩ : AffineParams ℝ) 640 480 0 1 ∧
    firstTwoRows (affineMatrix Real.cos Real.sin (⟨60, 40, 23 / 20, 8⟩ : AffineParams ℝ) 640 480)
      ≠ makeAffine23 Real.cos Real.sin (⟨60, 40, 23 / 20, 8⟩ : AffineParams ℝ) 640 480 := by
  have hs1 : 0 < Real.sin (radOf (8 : ℝ)) :=
    Real.sin_pos_of_pos_of_lt_pi radOf_eight_mem.1 radOf_eight_mem.2
  have hs2 : 0 < Real.sin ((8 : ℝ) * (CV_PI / 180)) :=
    Real.sin_pos_of_pos_of_lt_pi cvAngle_eight_mem.1 cvAngle_eight_mem.2
  have e1 :=
    (affineMatrix_entries Real.cos Real.sin (⟨60, 40, 23 / 20, 8⟩ : AffineParams ℝ) 640 480).2.1
  have e2 :=
    (makeAffine23_entries Real.cos Real.sin (⟨60, 40, 23 / 20, 8⟩ : AffineParams ℝ) 640 480).2.1
  simp only at e1 e2
  have h1 : affineMatrix Real.cos Real.sin (⟨60, 40, 23 / 20, 8⟩ : AffineParams ℝ) 640 480 0 1
      < 0 := by
    rw [e1]
    have : 0 < Real.sin (radOf (8 : ℝ)) * (23 / 20) := by positivity
    linarith
  have h2 : 0 < makeAffine23 Real.cos Real.sin (⟨60, 40, 23 / 20, 8⟩ : AffineParams ℝ) 640 480
      0 1 := by
    rw [e2]
    positivity
  refine ⟨h1, h2, ?_⟩
  intro hEq
  have h01 := congrFun (congrFun hEq 0) 1
  have hf : firstTwoRows
      (affineMatrix Real.cos Real.sin (⟨60, 40, 23 / 20, 8⟩ : AffineParams ℝ) 640 480) 0 1
      = affineMatrix Real.cos Real.sin (⟨60, 40, 23 / 20, 8⟩ : AffineParams ℝ) 640 480 0 1 := by
    simp [firstTwoRows]
  rw [hf] at h01
  linarith

/-- C3: for a positive scale, `affineMatrix` has last row `(0, 0, 1)`, linear
part `scale * [[cos t, -sin t], [sin t, cos t]]` where `t` is `thetaDeg`
converted to radians as the function converts it, determinant `scale ^ 2`
(which is positive), and it sends the image centre `(w/2, h/2)` to
`(w/2 + tx, h/2 + ty)`. -/
theorem affineMatrix_rotation_scale_about_centre (p : AffineParams ℝ) (w h : Int)
    (hs : 0 < p.scale) :
    (affineMatrix Real.cos Real.sin p w h 2 0 = 0 ∧
      affineMatrix Real.cos Real.sin p w h 2 1 = 0 ∧
      affineMatrix Real.cos Real.sin p w h 2 2 = 1) ∧
    (affineMatrix Real.cos Real.sin p w h 0 0 = p.scale * Real.cos (p.thetaDeg * piLiteral / 180) ∧
      affineMatrix Real.cos Real.sin p w h 0 1 = p.scale * -Real.sin (p.thetaDeg * piLiteral / 180) ∧
      affineMatrix Real.cos Real.sin p w h 1 0 = p.scale * Real.sin (p.thetaDeg * piLiteral / 180) ∧
      affineMatrix Real.cos Real.sin p w h 1 1 = p.scale * Real.cos (p.thetaDeg * piLiteral / 180)) ∧
    (linearDet (affineMatrix Real.cos Real.sin p w h) = p.scale ^ 2 ∧
      0 < linearDet (affineMatrix Real.cos Real.sin p w h)) ∧
    Matrix.mulVec (affineMatrix Real.cos Real.sin p w h) ![(w : ℝ) / 2, (h : ℝ) / 2, 1]
      = ![(w : ℝ) / 2 + p.tx, (h : ℝ) / 2 + p.ty, 1] := by
  have hdet : linearDet (affineMatrix Real.cos Real.sin p w h) = p.scale ^ 2 := by
    simp only [linearDet, affineMatrix, radOf]
    simp
    have := Real.cos_sq_add_sin_sq (p.thetaDeg * piLiteral / 180)
    nlinarith [this]
  refine ⟨?_, ?_, ⟨hdet, ?_⟩, ?_⟩
  · simp [affineMatrix, Matrix.vecHead, Matrix.vecTail]
  · simp [affineMatrix, radOf, mul_comm]
  · rw [hdet]; positivity
  · ext i
    fin_cases i <;>
      simp [affineMatrix, Matrix.mulVec, Matrix.dotProduct, Fin.sum_univ_three,
        Matrix.vecHead, Matrix.vecTail] <;> ring

/-- Witness for C3: scale 2, translation (3, 4), no rotation, 640x480. -/
theorem affineMatrix_rotation_scale_about_centre_witness :
    (0 : ℝ) < (⟨3, 4, 2, 0⟩ : AffineParams ℝ).scale ∧
    linearDet (affineMatrix Real.cos Real.sin (⟨3, 4, 2, 0⟩ : AffineParams ℝ) 640 480)
      = (⟨3, 4, 2, 0⟩ : AffineParams ℝ).scale ^ 2 :=
  ⟨by norm_num,
    (affineMatrix_rotation_scale_about_centre ⟨3, 4, 2, 0⟩ 640 480 (by norm_num)).2.2.1.1⟩

/-- If two scales give the same products with both the cosine and the sine of
one angle, the scales are equal. -/
theorem scale_eq_of_trig_mul_eq (t a b : ℝ)
    (hc : Real.cos t * a = Real.cos t * b) (hsn : Real.sin t * a = Real.sin t * b) :
    a = b := by
  have h1 : Real.cos t * (a - b) = 0 := by linarith
  have h2 : Real.sin t * (a - b) = 0 := by linarith
  have h3 := Real.cos_sq_add_sin_sq t
  have h4 : (a - b) ^ 2 = 0 := by
    have : (a - b) ^ 2 = (Real.cos t * (a - b)) ^ 2 + (Real.sin t * (a - b)) ^ 2 := by
      have : (Real.cos t * (a - b)) ^ 2 + (Real.sin t * (a - b)) ^ 2
          = (Real.cos t ^ 2 + Real.sin t ^ 2) * (a - b) ^ 2 := by ring
      rw [this, h3, one_mul]
    rw [this, h1, h2]; norm_num
  have h5 : a - b = 0 := by
    rcases pow_eq_zero_iff (two_ne_zero) |>.mp h4 with h
    exact h
  linarith

/-- The scale can be read back from the matrix built by `affineMatrix`. -/
theorem affineMatrix_scale_injective (p : AffineParams ℝ) (m : ℝ) (w h : Int)
    (hEq : affineMatrix Real.cos Real.sin p w h
      = affineMatrix Real.cos Real.sin { p with scale := m } w h) : p.scale = m := by
  have e := affineMatrix_entries Real.cos Real.sin p w h
  have e2 := affineMatrix_entries Real.cos Real.sin { p with scale := m } w h
  have h00 := congrFun (congrFun hEq 0) 0
  have h10 := congrFun (congrFun hEq 1) 0
  rw [e.1, e2.1] at h00
  rw [e.2.2.1, e2.2.2.1] at h10
  exact scale_eq_of_trig_mul_eq _ _ _ h00 h10

/-- The scale can be read back from the matrix built by `makeAffine23`. -/
theorem makeAffine23_scale_injective (p : AffineParams ℝ) (m : ℝ) (w h : Int)
    (hEq : makeAffine23 Real.cos Real.sin p w h
      = makeAffine23 Real.cos Real.sin { p with scale := m } w h) : p.scale = m := by
  have e := makeAffine23_entries Real.cos Real.sin p w h
  have e2 := makeAffine23_entries Real.cos Real.sin { p with scale := m } w h
  have h00 := congrFun (congrFun hEq 0) 0
  have h01 := congrFun (congrFun hEq 0) 1
  rw [e.1, e2.1] at h00
  rw [e.2.1, e2.2.1] at h01
  exact scale_eq_of_trig_mul_eq _ _ _ h00 h01

/-- The linear part of `affineMatrix` has determinant `scale ^ 2`. -/
theorem linearDet_affineMatrix (p : AffineParams ℝ) (w h : Int) :
    linearDet (affineMatrix Real.cos Real.sin p w h) = p.scale ^ 2 := by
  have e := affineMatrix_entries Real.cos Real.sin p w h
  have h3 := Real.cos_sq_add_sin_sq (radOf p.thetaDeg)
  unfold linearDet
  rw [e.1, e.2.1, e.2.2.1, e.2.2.2]
  linear_combination p.scale ^ 2 * h3

/-- The linear part of `makeAffine23` has determinant `scale ^ 2`. -/
theorem linearDet_makeAffine23 (p : AffineParams ℝ) (w h : Int) :
    linearDet (n := 0) (makeAffine23 Real.cos Real.sin p w h) = p.scale ^ 2 := by
  have e := makeAffine23_entries Real.cos Real.sin p w h
  have h3 := Real.cos_sq_add_sin_sq (p.thetaDeg * (CV_PI / 180))
  unfold linearDet
  rw [e.1, e.2.1, e.2.2.1, e.2.2.2]
  linear_combination p.scale ^ 2 * h3

/-- C4 (counterexample): with `scale = 0` (no rotation, no translation, 640x480)
neither `affineMatrix` nor `makeAffine23` returns the matrix of any positive
scale, and the linear part of both is singular. -/
theorem affineMatrix_zero_scale_not_clamped :
    (¬ ∃ m : ℝ, 0 < m ∧ affineMatrix Real.cos Real.sin (⟨0, 0, 0, 0⟩ : AffineParams ℝ) 640 480
        = affineMatrix Real.cos Real.sin (⟨0, 0, m, 0⟩ : AffineParams ℝ) 640 480) ∧
    (¬ ∃ m : ℝ, 0 < m ∧ makeAffine23 Real.cos Real.sin (⟨0, 0, 0, 0⟩ : AffineParams ℝ) 640 480
        = makeAffine23 Real.cos Real.sin (⟨0, 0, m, 0⟩ : AffineParams ℝ) 640 480) ∧
    linearDet (affineMatrix Real.cos Real.sin (⟨0, 0, 0, 0⟩ : AffineParams ℝ) 640 480) = 0 ∧
    linearDet (n := 0) (makeAffine23 Real.cos Real.sin (⟨0, 0, 0, 0⟩ : AffineParams ℝ) 640 480) = 0 := by
  refine ⟨?_, ?_, ?_, ?_⟩
  · rintro ⟨m, hm, hEq⟩
    have := affineMatrix_scale_injective ⟨0, 0, 0, 0⟩ m 640 480 hEq
    simp at this
    linarith
  · rintro ⟨m, hm, hEq⟩
    have := makeAffine23_scale_injective ⟨0, 0, 0, 0⟩ m 640 480 hEq
    simp at this
    linarith
  · rw [linearDet_affineMatrix]; norm_num
  · rw [linearDet_makeAffine23]; norm_num

/-- C4 (amended): a non-positive scale is propagated unchanged. For every
`p` with `scale ≤ 0` the matrix built by `affineMatrix`, and the one built by
`makeAffine23`, is the matrix of no positive scale; the determinant of its
linear part is `scale ^ 2`, which vanishes exactly when `scale = 0`. -/
theorem affineMatrix_nonpos_scale_propagated (p : AffineParams ℝ) (w h : Int)
    (hs : p.scale ≤ 0) :
    (∀ m : ℝ, 0 < m → affineMatrix Real.cos Real.sin p w h
        ≠ affineMatrix Real.cos Real.sin { p with scale := m } w h) ∧
    (∀ m : ℝ, 0 < m → makeAffine23 Real.cos Real.sin p w h
        ≠ makeAffine23 Real.cos Real.sin { p with scale := m } w h) ∧
    linearDet (affineMatrix Real.cos Real.sin p w h) = p.scale ^ 2 ∧
    linearDet (n := 0) (makeAffine23 Real.cos Real.sin p w h) = p.scale ^ 2 ∧
    (linearDet (affineMatrix Real.cos Real.sin p w h) = 0 ↔ p.scale = 0) ∧
    (linearDet (n := 0) (makeAffine23 Real.cos Real.sin p w h) = 0 ↔ p.scale = 0) := by
  refine ⟨?_, ?_, linearDet_affineMatrix p w h, linearDet_makeAffine23 p w h, ?_, ?_⟩
  · intro m hm hEq
    have := affineMatrix_scale_injective p m w h hEq
    linarith
  · intro m hm hEq
    have := makeAffine23_scale_injective p m w h hEq
    linarith
  · rw [linearDet_affineMatrix]
    exact pow_eq_zero_iff two_ne_zero
  · rw [linearDet_makeAffine23]
    exact pow_eq_zero_iff two_ne_zero

/-- Witness for C4 (amended): scale -1, rotation 30 degrees, 640x480. -/
theorem affineMatrix_nonpos_scale_propagated_witness :
    (⟨5, 7, -1, 30⟩ : AffineParams ℝ).scale ≤ 0 ∧
    linearDet (affineMatrix Real.cos Real.sin (⟨5, 7, -1, 30⟩ : AffineParams ℝ) 640 480)
      = (⟨5, 7, -1, 30⟩ : AffineParams ℝ).scale ^ 2 :=
  ⟨by norm_num,
    (affineMatrix_nonpos_scale_propagated ⟨5, 7, -1, 30⟩ 640 480 (by norm_num)).2.2.1⟩

/-! ## Theorems: SinCity (keep colour) filter -/

/-- On a non-empty frame `sinCityCPU` returns a frame of the same size whose
pixel at every position is the original pixel when the truncated distance is
at most the threshold and the replicated luminance otherwise. -/
theorem sinCityCPU_ok (lum : Vec3b → Nat) (img : Mat) (keepBGR : Vec3b) (thresh : Int)
    (hne : img.empty = false) :
    sinCityCPU lum img keepBGR thresh = Except.ok
      { rows := img.rows, cols := img.cols,
        px := fun y x =>
          if colorDistance (img.px y x) keepBGR ≤ thresh then img.px y x
          else { b := lum (img.px y x), g := lum (img.px y x), r := lum (img.px y x) } } := by
  have hdim : ¬ (img.rows = 0 ∨ img.cols = 0) := by
    simpa [Mat.empty] using hne
  simp only [sinCityCPU, cvtColorBGR2GRAY, cvtColorGRAY2BGR, hne, copyToMasked]
  simp only [Bool.false_eq_true, if_false, if_neg hdim]
  congr 2
  funext y x
  by_cases h : colorDistance (img.px y x) keepBGR ≤ thresh <;> simp [h]

/-- A frame with a pixel position is not empty. -/
theorem Mat.empty_eq_false_of_lt (img : Mat) {y x : Nat} (hy : y < img.rows)
    (hx : x < img.cols) : img.empty = false := by
  simp only [Mat.empty, Bool.or_eq_false_iff, beq_eq_false_iff_ne]
  omega

/-- The squared distance of `sinCityCPU`, read in the reals. -/
theorem sqDistance_toNat_cast (p k : Vec3b) :
    (((sqDistance p k).toNat : Nat) : ℝ)
      = ((p.b : ℝ) - k.b) ^ 2 + ((p.g : ℝ) - k.g) ^ 2 + ((p.r : ℝ) - k.r) ^ 2 := by
  have hnn : 0 ≤ sqDistance p k := by
    unfold sqDistance
    exact add_nonneg (add_nonneg (mul_self_nonneg _) (mul_self_nonneg _)) (mul_self_nonneg _)
  have h1 : (((sqDistance p k).toNat : Nat) : Int) = sqDistance p k := Int.toNat_of_nonneg hnn
  have h2 : (((sqDistance p k).toNat : Nat) : ℝ) = ((sqDistance p k : Int) : ℝ) := by
    rw [← Int.cast_natCast, h1]
  rw [h2]
  simp only [sqDistance]
  push_cast
  ring

/-- The distance of `sinCityCPU` is the floor of the Euclidean distance. -/
theorem colorDistance_eq_floor (p k : Vec3b) :
    colorDistance p k
      = ⌊Real.sqrt (((p.b : ℝ) - k.b) ^ 2 + ((p.g : ℝ) - k.g) ^ 2 + ((p.r : ℝ) - k.r) ^ 2)⌋ := by
  rw [← sqDistance_toNat_cast, Real.floor_real_sqrt_eq_nat_sqrt]
  rfl

/-- The squared distance of `sinCityCPU` is not negative. -/
theorem sqDistance_nonneg (p k : Vec3b) : 0 ≤ sqDistance p k := by
  unfold sqDistance
  exact add_nonneg (add_nonneg (mul_self_nonneg _) (mul_self_nonneg _)) (mul_self_nonneg _)

/-- The keep test of `sinCityCPU` in integer arithmetic. -/
theorem colorDistance_le_iff (p k : Vec3b) (t : Int) :
    colorDistance p k ≤ t ↔ 0 ≤ t ∧ sqDistance p k < (t + 1) ^ 2 := by
  have hnn := sqDistance_nonneg p k
  have hcast : (((sqDistance p k).toNat : Nat) : Int) = sqDistance p k := Int.toNat_of_nonneg hnn
  unfold colorDistance
  constructor
  · intro h
    have ht : 0 ≤ t := le_trans (Int.natCast_nonneg _) h
    refine ⟨ht, ?_⟩
    obtain ⟨m, rfl⟩ := Int.eq_ofNat_of_zero_le ht
    have h1 : Nat.sqrt (sqDistance p k).toNat < m + 1 := by omega
    have h2 : (sqDistance p k).toNat < (m + 1) ^ 2 := Nat.sqrt_lt'.mp h1
    rw [← hcast]
    exact_mod_cast h2
  · rintro ⟨ht, h⟩
    obtain ⟨m, rfl⟩ := Int.eq_ofNat_of_zero_le ht
    have h2 : (sqDistance p k).toNat < (m + 1) ^ 2 := by
      rw [← hcast] at h
      exact_mod_cast h
    have h1 : Nat.sqrt (sqDistance p k).toNat < m + 1 := Nat.sqrt_lt'.mpr h2
    omega

/-- C5 (counterexample): with `keepBGR = (20, 20, 200)` and threshold 60, the
pixel `(80, 21, 200)` lies at Euclidean distance `sqrt 3601`, strictly between
60 and 61, yet `applyCpuFilter(SinCity)` returns it with its original colour,
which is not its gray value. -/
theorem sinCity_keeps_pixel_beyond_threshold :
    (60 : ℝ) < Real.sqrt (((80 : ℝ) - 20) ^ 2 + ((21 : ℝ) - 20) ^ 2 + ((200 : ℝ) - 200) ^ 2) ∧
    Real.sqrt (((80 : ℝ) - 20) ^ 2 + ((21 : ℝ) - 20) ^ 2 + ((200 : ℝ) - 200) ^ 2) < 60 + 1 ∧
    ∃ out : Mat,
      applyCpuFilter lumBT601 (Mat.ofRows 1 [[⟨80, 21, 200⟩]]) FilterType.SinCity
        { pixelBlock := 8, keepBGR := ⟨20, 20, 200⟩, thresh := 60 } = Except.ok out ∧
      out.px 0 0 = ⟨80, 21, 200⟩ ∧
      out.px 0 0 ≠ ⟨lumBT601 ⟨80, 21, 200⟩, lumBT601 ⟨80, 21, 200⟩, lumBT601 ⟨80, 21, 200⟩⟩ := by
  refine ⟨?_, ?_, ?_⟩
  · rw [Real.lt_sqrt (by norm_num)]
    norm_num
  · rw [Real.sqrt_lt' (by norm_num)]
    norm_num
  · refine ⟨_, sinCityCPU_ok lumBT601 (Mat.ofRows 1 [[⟨80, 21, 200⟩]]) ⟨20, 20, 200⟩ 60 rfl,
      ?_, ?_⟩
    · have hk : colorDistance (⟨80, 21, 200⟩ : Vec3b) ⟨20, 20, 200⟩ ≤ 60 := by
        rw [colorDistance_le_iff]
        decide
      simp only [Mat.ofRows, List.getD_cons_zero]
      rw [if_pos hk]
    · have hk : colorDistance (⟨80, 21, 200⟩ : Vec3b) ⟨20, 20, 200⟩ ≤ 60 := by
        rw [colorDistance_le_iff]
        decide
      simp only [Mat.ofRows, List.getD_cons_zero]
      rw [if_pos hk]
      decide

/-- C5 (amended): for every frame, every keep colour, every threshold and
every pixel position, the output pixel of `applyCpuFilter(SinCity)` is the
original pixel when the integer part of the Euclidean distance to `keepBGR`
is at most the threshold, and the replicated luminance of that pixel
otherwise; in particular a pixel whose distance lies strictly between
`thresh` and `thresh + 1` keeps its original colour. -/
theorem sinCity_keep_rule_truncated (lum : Vec3b → Nat) (img : Mat) (fp : FilterParams)
    (y x : Nat) (hy : y < img.rows) (hx : x < img.cols) :
    ∃ out : Mat,
      applyCpuFilter lum img FilterType.SinCity fp = Except.ok out ∧
      out.rows = img.rows ∧ out.cols = img.cols ∧
      (⌊Real.sqrt ((((img.px y x).b : ℝ) - fp.keepBGR.b) ^ 2
          + (((img.px y x).g : ℝ) - fp.keepBGR.g) ^ 2
          + (((img.px y x).r : ℝ) - fp.keepBGR.r) ^ 2)⌋ ≤ fp.thresh →
        out.px y x = img.px y x) ∧
      (fp.thresh < ⌊Real.sqrt ((((img.px y x).b : ℝ) - fp.keepBGR.b) ^ 2
          + (((img.px y x).g : ℝ) - fp.keepBGR.g) ^ 2
          + (((img.px y x).r : ℝ) - fp.keepBGR.r) ^ 2)⌋ →
        out.px y x
          = { b := lum (img.px y x), g := lum (img.px y x), r := lum (img.px y x) }) ∧
      ((fp.thresh : ℝ) < Real.sqrt ((((img.px y x).b : ℝ) - fp.keepBGR.b) ^ 2
          + (((img.px y x).g : ℝ) - fp.keepBGR.g) ^ 2
          + (((img.px y x).r : ℝ) - fp.keepBGR.r) ^ 2) →
        Real.sqrt ((((img.px y x).b : ℝ) - fp.keepBGR.b) ^ 2
          + (((img.px y x).g : ℝ) - fp.keepBGR.g) ^ 2
          + (((img.px y x).r : ℝ) - fp.keepBGR.r) ^ 2) < (fp.thresh : ℝ) + 1 →
        out.px y x = img.px y x) := by
  have hne := Mat.empty_eq_false_of_lt img hy hx
  refine ⟨_, sinCityCPU_ok lum img fp.keepBGR fp.thresh hne, rfl, rfl, ?_, ?_, ?_⟩
  · intro h
    rw [← colorDistance_eq_floor] at h
    simp only [if_pos h]
  · intro h
    rw [← colorDistance_eq_floor] at h
    simp only [if_neg (not_le.mpr h)]
  · intro h1 h2
    have hfl : colorDistance (img.px y x) fp.keepBGR = fp.thresh := by
      rw [colorDistance_eq_floor, Int.floor_eq_iff]
      exact ⟨le_of_lt h1, h2⟩
    simp only [if_pos (le_of_eq hfl)]

/-- Witness for C5 (amended): the 1x1 frame holding `(80, 21, 200)`. -/
theorem sinCity_keep_rule_truncated_witness :
    0 < (Mat.ofRows 1 [[⟨80, 21, 200⟩]]).rows ∧ 0 < (Mat.ofRows 1 [[⟨80, 21, 200⟩]]).cols ∧
    ∃ out : Mat,
      applyCpuFilter lumBT601 (Mat.ofRows 1 [[⟨80, 21, 200⟩]]) FilterType.SinCity
        { pixelBlock := 8, keepBGR := ⟨20, 20, 200⟩, thresh := 60 } = Except.ok out ∧
      out.rows = 1 ∧ out.cols = 1 :=
  ⟨by decide, by decide,
    (sinCity_keep_rule_truncated lumBT601 (Mat.ofRows 1 [[⟨80, 21, 200⟩]])
      { pixelBlock := 8, keepBGR := ⟨20, 20, 200⟩, thresh := 60 } 0 0 (by decide) (by decide)).imp
      fun _ h => ⟨h.1, h.2.1, h.2.2.1⟩⟩

/-- C6: with `keepBGR = (20, 20, 200)` and threshold 60, at every position of
every frame `applyCpuFilter(SinCity)` leaves a pixel `(20, 20, 200)` as it is
and turns a pixel `(0, 0, 255)` into the pixel whose three channels are the
luminance of `(0, 0, 255)`. -/
theorem sinCity_example_pixels (lum : Vec3b → Nat) (img : Mat) (block : Int)
    (y x : Nat) (hy : y < img.rows) (hx : x < img.cols) :
    ∃ out : Mat,
      applyCpuFilter lum img FilterType.SinCity
        { pixelBlock := block, keepBGR := ⟨20, 20, 200⟩, thresh := 60 } = Except.ok out ∧
      (img.px y x = ⟨20, 20, 200⟩ → out.px y x = ⟨20, 20, 200⟩) ∧
      (img.px y x = ⟨0, 0, 255⟩ →
        out.px y x = ⟨lum ⟨0, 0, 255⟩, lum ⟨0, 0, 255⟩, lum ⟨0, 0, 255⟩⟩) := by
  have hne := Mat.empty_eq_false_of_lt img hy hx
  refine ⟨_, sinCityCPU_ok lum img ⟨20, 20, 200⟩ 60 hne, ?_, ?_⟩
  · intro hp
    have hk : colorDistance (img.px y x) ⟨20, 20, 200⟩ ≤ 60 := by
      rw [hp, colorDistance_le_iff]
      decide
    simp only [if_pos hk]
    exact hp
  · intro hp
    have hk : ¬ colorDistance (img.px y x) ⟨20, 20, 200⟩ ≤ 60 := by
      rw [hp, colorDistance_le_iff]
      decide
    simp only [if_neg hk]
    rw [hp]

/-- Witness for C6: the 1x2 frame holding `(20, 20, 200)` and `(0, 0, 255)`,
read at the second pixel. -/
theorem sinCity_example_pixels_witness :
    0 < (Mat.ofRows 2 [[⟨20, 20, 200⟩, ⟨0, 0, 255⟩]]).rows ∧
    1 < (Mat.ofRows 2 [[⟨20, 20, 200⟩, ⟨0, 0, 255⟩]]).cols ∧
    ∃ out : Mat,
      applyCpuFilter lumBT601 (Mat.ofRows 2 [[⟨20, 20, 200⟩, ⟨0, 0, 255⟩]]) FilterType.SinCity
        { pixelBlock := 8, keepBGR := ⟨20, 20, 200⟩, thresh := 60 } = Except.ok out ∧
      out.px 0 1 = ⟨76, 76, 76⟩ :=
  ⟨by decide, by decide,
    (sinCity_example_pixels lumBT601 (Mat.ofRows 2 [[⟨20, 20, 200⟩, ⟨0, 0, 255⟩]]) 8 0 1
      (by decide) (by decide)).imp
      fun _ h => ⟨h.1, (h.2.2 rfl).trans (by decide)⟩⟩

/-! ## Theorems: Pixelate filter -/

/-- The routine `resize` succeeds on a non-empty source and a non-empty size. -/
theorem resize_ok (src : Mat) (dw dh : Nat) (flag : InterpolationFlags)
    (hne : src.empty = false) (hw : 0 < dw) (hh : 0 < dh) :
    resize src dw dh flag = Except.ok
      { rows := dh, cols := dw,
        px := fun y x =>
          match flag with
          | InterpolationFlags.INTER_NEAREST =>
            src.px (nearestIndex src.rows dh y) (nearestIndex src.cols dw x)
          | InterpolationFlags.INTER_LINEAR => linearPixel src dw dh y x } := by
  have hsz : ¬ (dw = 0 ∨ dh = 0) := by omega
  unfold resize
  rw [hne]
  simp only [Bool.false_eq_true, if_false, if_neg hsz]
  cases flag <;> rfl

/-- The size of the intermediate image of `pixelateCPU`, in natural numbers. -/
theorem small_size_toNat (n b : Nat) (hb : 2 ≤ b) :
    (max 1 ((n : Int) / max 2 (b : Int))).toNat = max 1 (n / b) := by
  have h2 : max 2 (b : Int) = (b : Int) := max_eq_right (by exact_mod_cast hb)
  rw [h2]
  have h3 : (n : Int) / (b : Int) = ((n / b : Nat) : Int) := by norm_cast
  rw [h3]
  omega

/-- On a non-empty frame and a block of at least 2, `pixelateCPU` returns the
nearest-neighbour enlargement of the bilinear reduction. -/
theorem pixelateCPU_ok (img : Mat) (b : Nat) (hne : img.empty = false) (hb : 2 ≤ b) :
    pixelateCPU img (b : Int) = Except.ok
      { rows := img.rows, cols := img.cols,
        px := fun y x =>
          linearPixel img (max 1 (img.cols / b)) (max 1 (img.rows / b))
            (nearestIndex (max 1 (img.rows / b)) img.rows y)
            (nearestIndex (max 1 (img.cols / b)) img.cols x) } := by
  have hdim : 0 < img.rows ∧ 0 < img.cols := by
    simp only [Mat.empty, Bool.or_eq_false_iff, beq_eq_false_iff_ne] at hne
    omega
  have hguard : ¬ (img.empty = true ∨ (b : Int) ≤ 1) := by
    rw [hne]
    simp only [Bool.false_eq_true, false_or, not_le]
    omega
  unfold pixelateCPU
  rw [if_neg hguard]
  simp only [small_size_toNat _ b hb]
  rw [resize_ok img _ _ InterpolationFlags.INTER_LINEAR hne (by omega) (by omega)]
  simp only
  rw [resize_ok _ _ _ InterpolationFlags.INTER_NEAREST (by simp [Mat.empty]) hdim.2 hdim.1]

/-- A block size of at most 1 makes `pixelateCPU` return its input. -/
theorem pixelateCPU_small_block (img : Mat) (block : Int) (hb : block ≤ 1) :
    pixelateCPU img block = Except.ok img := by
  unfold pixelateCPU
  rw [if_pos (Or.inr hb)]

/-- The clipped index lies in the source. -/
theorem clipIndex_le (i : Int) (n : Nat) : clipIndex i n ≤ n - 1 :=
  Nat.min_le_right _ _

/-- The weight of a linear tap does not exceed its denominator, which is positive. -/
theorem linearTap_weight (src dst d : Nat) (hdst : 0 < dst) :
    (linearTap src dst d).w1 ≤ (linearTap src dst d).den ∧ 0 < (linearTap src dst d).den := by
  simp only [linearTap]
  have hden : (0 : Int) < 2 * (dst : Int) := by omega
  have h1 := Int.emod_lt_of_pos ((2 * (d : Int) + 1) * (src : Int) - (dst : Int)) hden
  have h2 := Int.emod_nonneg ((2 * (d : Int) + 1) * (src : Int) - (dst : Int)) (ne_of_gt hden)
  constructor
  · omega
  · omega

/-- Blending four equal values gives that value. -/
theorem lerp2_const (tx ty : LinearTap) (c : Nat) (hx : tx.w1 ≤ tx.den) (hy : ty.w1 ≤ ty.den)
    (hdx : 0 < tx.den) (hdy : 0 < ty.den) : lerp2 tx ty c c c c = c := by
  obtain ⟨a, ha⟩ := Nat.exists_eq_add_of_le hx
  obtain ⟨e, he⟩ := Nat.exists_eq_add_of_le hy
  have hs : (tx.den - tx.w1) * (ty.den - ty.w1) * c + tx.w1 * (ty.den - ty.w1) * c
      + (tx.den - tx.w1) * ty.w1 * c + tx.w1 * ty.w1 * c = tx.den * ty.den * c := by
    rw [ha, he]
    simp only [Nat.add_sub_cancel_left]
    ring
  have hpos : 0 < tx.den * ty.den := Nat.mul_pos hdx hdy
  unfold lerp2
  simp only [hs]
  have : 2 * (tx.den * ty.den * c) + tx.den * ty.den
      = tx.den * ty.den + 2 * (tx.den * ty.den) * c := by ring
  rw [this, Nat.add_mul_div_left _ _ (by omega)]
  rw [Nat.div_eq_of_lt (by omega)]
  omega

/-- If the four pixels read by `INTER_LINEAR` are equal, the result is that pixel. -/
theorem linearPixel_const (src : Mat) (dw dh y x : Nat) (c : Vec3b)
    (hw : 0 < dw) (hh : 0 < dh)
    (h00 : src.px (linearTap src.rows dh y).i0 (linearTap src.cols dw x).i0 = c)
    (h01 : src.px (linearTap src.rows dh y).i0 (linearTap src.cols dw x).i1 = c)
    (h10 : src.px (linearTap src.rows dh y).i1 (linearTap src.cols dw x).i0 = c)
    (h11 : src.px (linearTap src.rows dh y).i1 (linearTap src.cols dw x).i1 = c) :
    linearPixel src dw dh y x = c := by
  have hx := linearTap_weight src.cols dw x hw
  have hy := linearTap_weight src.rows dh y hh
  simp only [linearPixel, h00, h01, h10, h11]
  rw [lerp2_const _ _ _ hx.1 hy.1 hx.2 hy.2, lerp2_const _ _ _ hx.1 hy.1 hx.2 hy.2,
    lerp2_const _ _ _ hx.1 hy.1 hx.2 hy.2]

/-- Both indices of a linear tap lie in the source. -/
theorem linearTap_index_le (src dst d : Nat) :
    (linearTap src dst d).i0 ≤ src - 1 ∧ (linearTap src dst d).i1 ≤ src - 1 :=
  ⟨clipIndex_le _ _, clipIndex_le _ _⟩

/-- A block size above 1 is a natural number of at least 2. -/
theorem block_eq_natCast (block : Int) (hb : ¬ block ≤ 1) :
    ∃ b : Nat, block = (b : Int) ∧ 2 ≤ b := by
  obtain ⟨b, hb2⟩ := Int.eq_ofNat_of_zero_le (show 0 ≤ block by omega)
  exact ⟨b, hb2, by omega⟩

/-- The lemma `pixelateCPU_ok`, read through `applyCpuFilter`. -/
theorem applyCpuFilter_pixelate_ok (lum : Vec3b → Nat) (img : Mat) (fp : FilterParams) (b : Nat)
    (hne : img.empty = false) (hb : 2 ≤ b) (hfp : fp.pixelBlock = (b : Int)) :
    applyCpuFilter lum img FilterType.Pixelate fp = Except.ok
      { rows := img.rows, cols := img.cols,
        px := fun y x =>
          linearPixel img (max 1 (img.cols / b)) (max 1 (img.rows / b))
            (nearestIndex (max 1 (img.rows / b)) img.rows y)
            (nearestIndex (max 1 (img.cols / b)) img.cols x) } := by
  show pixelateCPU img fp.pixelBlock = _
  rw [hfp, pixelateCPU_ok img b hne hb]

/-- C7 (counterexample): on the 4x1 frame `255, 0, 0, 255` with block size 4,
`applyCpuFilter(Pixelate)` returns black, while downsampling by
area-averaging and upsampling by nearest neighbour gives the mean 128. -/
theorem pixelate_is_not_area_average :
    ∃ out : Mat,
      applyCpuFilter lumBT601
        (Mat.ofRows 4 [[⟨255, 255, 255⟩, ⟨0, 0, 0⟩, ⟨0, 0, 0⟩, ⟨255, 255, 255⟩]])
        FilterType.Pixelate { pixelBlock := 4, keepBGR := ⟨20, 20, 200⟩, thresh := 60 }
        = Except.ok out ∧
      out.px 0 0 = ⟨0, 0, 0⟩ ∧
      (pixelateSpec
        (Mat.ofRows 4 [[⟨255, 255, 255⟩, ⟨0, 0, 0⟩, ⟨0, 0, 0⟩, ⟨255, 255, 255⟩]]) 4).px 0 0
        = ⟨128, 128, 128⟩ := by
  refine ⟨_, pixelateCPU_ok
    (Mat.ofRows 4 [[⟨255, 255, 255⟩, ⟨0, 0, 0⟩, ⟨0, 0, 0⟩, ⟨255, 255, 255⟩]]) 4 rfl (by decide),
    ?_, ?_⟩
  · decide
  · decide

/-- C7 (amended): for a non-empty `w x h` frame and a block size `b ≥ 2`,
`applyCpuFilter(Pixelate)` reduces the frame to
`max(1, w / b) x max(1, h / b)` by bilinear interpolation (`INTER_LINEAR`) and
enlarges that image to `w x h` by nearest-neighbour replication; the result
has the dimensions of the input. -/
theorem pixelate_linear_then_nearest (lum : Vec3b → Nat) (img : Mat) (fp : FilterParams)
    (b : Nat) (hne : img.empty = false) (hb : 2 ≤ b) (hfp : fp.pixelBlock = (b : Int)) :
    ∃ small out : Mat,
      resize img (max 1 (img.cols / b)) (max 1 (img.rows / b)) InterpolationFlags.INTER_LINEAR
        = Except.ok small ∧
      small.cols = max 1 (img.cols / b) ∧ small.rows = max 1 (img.rows / b) ∧
      (∀ y x, small.px y x
        = linearPixel img (max 1 (img.cols / b)) (max 1 (img.rows / b)) y x) ∧
      resize small img.cols img.rows InterpolationFlags.INTER_NEAREST = Except.ok out ∧
      applyCpuFilter lum img FilterType.Pixelate fp = Except.ok out ∧
      out.cols = img.cols ∧ out.rows = img.rows ∧
      (∀ y x, out.px y x
        = small.px (nearestIndex small.rows img.rows y) (nearestIndex small.cols img.cols x)) := by
  have hdim : 0 < img.rows ∧ 0 < img.cols := by
    simp only [Mat.empty, Bool.or_eq_false_iff, beq_eq_false_iff_ne] at hne
    omega
  refine ⟨_, _, resize_ok img _ _ InterpolationFlags.INTER_LINEAR hne (by omega) (by omega),
    rfl, rfl, fun _ _ => rfl,
    resize_ok _ _ _ InterpolationFlags.INTER_NEAREST (by simp [Mat.empty]) hdim.2 hdim.1,
    ?_, rfl, rfl, fun _ _ => rfl⟩
  show pixelateCPU img fp.pixelBlock = _
  rw [hfp, pixelateCPU_ok img b hne hb]

/-- Witness for C7 (amended): the 4x1 frame `255, 0, 0, 255` with block size 4. -/
theorem pixelate_linear_then_nearest_witness :
    ∃ small out : Mat,
      small.cols = 1 ∧ small.rows = 1 ∧
      applyCpuFilter lumBT601
        (Mat.ofRows 4 [[⟨255, 255, 255⟩, ⟨0, 0, 0⟩, ⟨0, 0, 0⟩, ⟨255, 255, 255⟩]])
        FilterType.Pixelate { pixelBlock := 4, keepBGR := ⟨20, 20, 200⟩, thresh := 60 }
        = Except.ok out ∧
      out.cols = 4 ∧ out.rows = 1 := by
  obtain ⟨small, out, _, h2, h3, _, _, h6, h7, h8, _⟩ :=
    pixelate_linear_then_nearest lumBT601
      (Mat.ofRows 4 [[⟨255, 255, 255⟩, ⟨0, 0, 0⟩, ⟨0, 0, 0⟩, ⟨255, 255, 255⟩]])
      { pixelBlock := 4, keepBGR := ⟨20, 20, 200⟩, thresh := 60 } 4 rfl (by decide) rfl
  exact ⟨small, out, h2, h3, h6, h7, h8⟩

/-- C9: on a non-empty frame whose pixels all have the colour `c`,
`applyCpuFilter(Pixelate)` returns, for every block size, a frame of the same
dimensions whose pixels all have the colour `c`. -/
theorem pixelate_uniform (lum : Vec3b → Nat) (img : Mat) (fp : FilterParams) (c : Vec3b)
    (hne : img.empty = false)
    (hc : ∀ y x, y < img.rows → x < img.cols → img.px y x = c) :
    ∃ out : Mat,
      applyCpuFilter lum img FilterType.Pixelate fp = Except.ok out ∧
      out.cols = img.cols ∧ out.rows = img.rows ∧
      ∀ y x, y < out.rows → x < out.cols → out.px y x = c := by
  have hdim : 0 < img.rows ∧ 0 < img.cols := by
    simp only [Mat.empty, Bool.or_eq_false_iff, beq_eq_false_iff_ne] at hne
    omega
  by_cases hsmall : fp.pixelBlock ≤ 1
  · exact ⟨img, pixelateCPU_small_block img _ hsmall, rfl, rfl, hc⟩
  · obtain ⟨b, hfp, hb⟩ := block_eq_natCast _ hsmall
    refine ⟨_, applyCpuFilter_pixelate_ok lum img fp b hne hb hfp, rfl, rfl, ?_⟩
    · intro y x _ _
      have hr := fun d => linearTap_index_le img.rows (max 1 (img.rows / b)) d
      have hcI := fun d => linearTap_index_le img.cols (max 1 (img.cols / b)) d
      apply linearPixel_const _ _ _ _ _ _ (by omega) (by omega)
      · exact hc _ _ (by have := (hr (nearestIndex (max 1 (img.rows / b)) img.rows y)).1; omega)
          (by have := (hcI (nearestIndex (max 1 (img.cols / b)) img.cols x)).1; omega)
      · exact hc _ _ (by have := (hr (nearestIndex (max 1 (img.rows / b)) img.rows y)).1; omega)
          (by have := (hcI (nearestIndex (max 1 (img.cols / b)) img.cols x)).2; omega)
      · exact hc _ _ (by have := (hr (nearestIndex (max 1 (img.rows / b)) img.rows y)).2; omega)
          (by have := (hcI (nearestIndex (max 1 (img.cols / b)) img.cols x)).1; omega)
      · exact hc _ _ (by have := (hr (nearestIndex (max 1 (img.rows / b)) img.rows y)).2; omega)
          (by have := (hcI (nearestIndex (max 1 (img.cols / b)) img.cols x)).2; omega)

/-- Witness for C9: the uniform 640x480 frame of colour `(20, 20, 200)` with
block size 8. -/
theorem pixelate_uniform_witness :
    ∃ out : Mat,
      applyCpuFilter lumBT601 (uniformFrame 640 480 ⟨20, 20, 200⟩) FilterType.Pixelate
        { pixelBlock := 8, keepBGR := ⟨20, 20, 200⟩, thresh := 60 } = Except.ok out ∧
      out.cols = 640 ∧ out.rows = 480 ∧
      ∀ y x, y < out.rows → x < out.cols → out.px y x = ⟨20, 20, 200⟩ :=
  pixelate_uniform lumBT601 (uniformFrame 640 480 ⟨20, 20, 200⟩)
    { pixelBlock := 8, keepBGR := ⟨20, 20, 200⟩, thresh := 60 } ⟨20, 20, 200⟩ rfl
    (fun _ _ _ _ => rfl)

/-- Within its guard `warpCpuAffine` returns the frame it was given. -/
theorem warpCpuAffine_guard (img : Mat) (p : AffineParams ℝ)
    (h : p.scale = 1 ∧ |p.thetaDeg| < 1 / 10000 ∧ |p.tx| < 1 / 10000 ∧ |p.ty| < 1 / 10000) :
    warpCpuAffine Real.cos Real.sin img p = Except.ok img := by
  unfold warpCpuAffine
  rw [if_pos h]

/-- Outside its guard `warpCpuAffine` hands the frame to `cv::warpAffine`. -/
theorem warpCpuAffine_resample (img : Mat) (p : AffineParams ℝ)
    (h : ¬ (p.scale = 1 ∧ |p.thetaDeg| < 1 / 10000 ∧ |p.tx| < 1 / 10000 ∧ |p.ty| < 1 / 10000)) :
    warpCpuAffine Real.cos Real.sin img p
      = warpAffine img (makeAffine23 Real.cos Real.sin p (img.cols : Int) (img.rows : Int))
          img.cols img.rows := by
  unfold warpCpuAffine
  rw [if_neg h]

/-- The inverse map that `cv::warpAffine` uses for a pure scaling by
`s ≠ 0` about the centre of a `w x h` frame. -/
theorem invert_makeAffine23_scale (s : ℝ) (hs : s ≠ 0) (w h : Int) :
    invertAffineTransform (makeAffine23 Real.cos Real.sin (⟨0, 0, s, 0⟩ : AffineParams ℝ) w h)
      = !![1 / s, 0, (w : ℝ) / 2 * (s - 1) / s;
           0, 1 / s, (h : ℝ) / 2 * (s - 1) / s] := by
  have hD : s * s ≠ 0 := mul_ne_zero hs hs
  ext i j
  fin_cases i <;> fin_cases j <;>
    simp [invertAffineTransform, makeAffine23, getRotationMatrix2D, hs] <;>
    field_simp <;> ring

/-- The pixel that `cv::warpAffine` writes at the origin when the inverse map
sends the origin to `(X, Y)` with `0 ≤ X < 1` and `0 ≤ Y < 1`. -/
theorem warpPixel_origin (src : Mat) (A : Matrix (Fin 2) (Fin 3) ℝ)
    (hX : 0 ≤ A 0 2 ∧ A 0 2 < 1) (hY : 0 ≤ A 1 2 ∧ A 1 2 < 1) :
    warpPixel src A 0 0
      = { b := bilinearChannel (A 0 2) (A 1 2) (borderPx src 0 0).b (borderPx src 0 1).b
            (borderPx src 1 0).b (borderPx src 1 1).b
          g := bilinearChannel (A 0 2) (A 1 2) (borderPx src 0 0).g (borderPx src 0 1).g
            (borderPx src 1 0).g (borderPx src 1 1).g
          r := bilinearChannel (A 0 2) (A 1 2) (borderPx src 0 0).r (borderPx src 0 1).r
            (borderPx src 1 0).r (borderPx src 1 1).r } := by
  have fX : ⌊A 0 2⌋ = 0 := by
    rw [Int.floor_eq_iff]
    exact ⟨by simpa using hX.1, by simpa using hX.2⟩
  have fY : ⌊A 1 2⌋ = 0 := by
    rw [Int.floor_eq_iff]
    exact ⟨by simpa using hY.1, by simpa using hY.2⟩
  simp [warpPixel, fX, fY]

/-- C12 (counterexample): with `scale = 1.00009` (within `1e-4` of 1), no
rotation and no translation, `warpCpuAffine` resamples the 1920x1080 frame
that is black at the origin and white elsewhere, and the pixel at the origin
changes; with `scale = 1.00001` the frame is handed to `cv::warpAffine` too. -/
theorem warpCpuAffine_resamples_near_identity :
    |(100009 / 100000 : ℝ) - 1| < 1 / 10000 ∧
    (∃ out : Mat,
      warpCpuAffine Real.cos Real.sin (cornerFrame 1920 1080)
        (⟨0, 0, 100009 / 100000, 0⟩ : AffineParams ℝ) = Except.ok out ∧
      out.px 0 0 ≠ (cornerFrame 1920 1080).px 0 0) ∧
    |(100001 / 100000 : ℝ) - 1| < 1 / 10000 ∧
    warpCpuAffine Real.cos Real.sin (cornerFrame 1920 1080)
        (⟨0, 0, 100001 / 100000, 0⟩ : AffineParams ℝ)
      = warpAffine (cornerFrame 1920 1080)
          (makeAffine23 Real.cos Real.sin (⟨0, 0, 100001 / 100000, 0⟩ : AffineParams ℝ)
            1920 1080) 1920 1080 := by
  refine ⟨by rw [abs_lt]; constructor <;> norm_num, ?_,
    by rw [abs_lt]; constructor <;> norm_num, ?_⟩
  · rw [warpCpuAffine_resample _ _ (by norm_num)]
    refine ⟨_, rfl, ?_⟩
    show warpPixel (cornerFrame 1920 1080)
      (invertAffineTransform (makeAffine23 Real.cos Real.sin
        (⟨0, 0, 100009 / 100000, 0⟩ : AffineParams ℝ) 1920 1080)) 0 0 ≠ _
    rw [invert_makeAffine23_scale _ (by norm_num)]
    rw [warpPixel_origin _ _ (by constructor <;> norm_num) (by constructor <;> norm_num)]
    intro h
    have hb := congrArg Vec3b.b h
    simp [borderPx, cornerFrame, bilinearChannel] at hb
    rw [← Int.lt_add_one_iff, Int.floor_lt] at hb
    norm_num at hb
  · exact warpCpuAffine_resample _ _ (by norm_num)

/-- C12 (amended): when rotation and translation each differ from 0 by less
than `1e-4`, `warpCpuAffine` returns the frame unchanged if the scale is
exactly 1, and hands the frame to `cv::warpAffine` for resampling if the
scale is any other value. -/
theorem warpCpuAffine_noop_iff_scale_one (img : Mat) (p : AffineParams ℝ)
    (hθ : |p.thetaDeg - 0| < 1 / 10000) (hx : |p.tx - 0| < 1 / 10000)
    (hy : |p.ty - 0| < 1 / 10000) :
    (p.scale = 1 → warpCpuAffine Real.cos Real.sin img p = Except.ok img) ∧
    (p.scale ≠ 1 → warpCpuAffine Real.cos Real.sin img p
      = warpAffine img (makeAffine23 Real.cos Real.sin p (img.cols : Int) (img.rows : Int))
          img.cols img.rows) := by
  rw [sub_zero] at hθ hx hy
  constructor
  · intro hs
    exact warpCpuAffine_guard img p ⟨hs, hθ, hx, hy⟩
  · intro hs
    exact warpCpuAffine_resample img p (fun h => hs h.1)

/-- Witness for C12 (amended): scale 1, rotation `0.00005` degrees and
translation `(0.00005, -0.00005)` on the 640x480 gradient frame. -/
theorem warpCpuAffine_noop_iff_scale_one_witness :
    warpCpuAffine Real.cos Real.sin (gradientFrame 640 480)
      (⟨1 / 20000, -1 / 20000, 1, 1 / 20000⟩ : AffineParams ℝ)
      = Except.ok (gradientFrame 640 480) :=
  (warpCpuAffine_noop_iff_scale_one (gradientFrame 640 480)
    (⟨1 / 20000, -1 / 20000, 1, 1 / 20000⟩ : AffineParams ℝ)
    (by rw [abs_lt]; constructor <;> norm_num)
    (by rw [abs_lt]; constructor <;> norm_num)
    (by rw [abs_lt]; constructor <;> norm_num)).1 rfl

/-- On an empty frame `sinCityCPU` ends in the assertion failure of
`cv::cvtColor`, whatever the keep colour and the threshold. -/
theorem sinCityCPU_empty (lum : Vec3b → Nat) (img : Mat) (keepBGR : Vec3b) (thresh : Int)
    (he : img.empty = true) :
    sinCityCPU lum img keepBGR thresh = Except.error CvException.emptySource := by
  simp [sinCityCPU, cvtColorBGR2GRAY, he]

/-- On an empty frame `warpCpuAffine` outside its guard ends in the assertion
failure of `cv::warpAffine`. -/
theorem warpCpuAffine_empty (img : Mat) (p : AffineParams ℝ) (he : img.empty = true)
    (h : ¬ (p.scale = 1 ∧ |p.thetaDeg| < 1 / 10000 ∧ |p.tx| < 1 / 10000 ∧ |p.ty| < 1 / 10000)) :
    warpCpuAffine Real.cos Real.sin img p = Except.error CvException.emptySource := by
  rw [warpCpuAffine_resample img p h]
  simp [warpAffine, he]

/-- C11 (evaluation at the failing input): on the empty frame the filters
`None` and `Pixelate` and the warp with the identity parameters return the
frame, but `applyCpuFilter(SinCity)` and `warpCpuAffine` with the benchmark's
parameters end in the library's assertion failure. -/
theorem empty_frame_not_always_noop :
    applyCpuFilter lumBT601 emptyFrame FilterType.None FilterParams.init
      = Except.ok emptyFrame ∧
    applyCpuFilter lumBT601 emptyFrame FilterType.Pixelate FilterParams.init
      = Except.ok emptyFrame ∧
    warpCpuAffine Real.cos Real.sin emptyFrame (AffineParams.init : AffineParams ℝ)
      = Except.ok emptyFrame ∧
    applyCpuFilter lumBT601 emptyFrame FilterType.SinCity FilterParams.init
      = Except.error CvException.emptySource ∧
    warpCpuAffine Real.cos Real.sin emptyFrame (⟨60, 40, 23 / 20, 8⟩ : AffineParams ℝ)
      = Except.error CvException.emptySource := by
  refine ⟨rfl, rfl, ?_, rfl, ?_⟩
  · exact warpCpuAffine_guard _ _ (by simp [AffineParams.init])
  · rw [warpCpuAffine_resample _ _ (by norm_num)]
    rfl

/-! ## Theorems: aggregation of a sampling window -/

/-- A left fold that adds `g x` for each element is the sum of the `g x`. -/
theorem foldl_add_eq_sum (g : ℝ → ℝ) (v : List ℝ) (a : ℝ) :
    v.foldl (fun acc x => acc + g x) a = a + (v.map g).sum := by
  induction v generalizing a with
  | nil => simp
  | cons x xs ih =>
    simp only [List.foldl_cons, List.map_cons, List.sum_cons]
    rw [ih]
    ring

/-- The call `std::accumulate` returns the sum of the samples. -/
theorem accumulate_eq_sum (v : List ℝ) : accumulate v = v.sum := by
  have h := foldl_add_eq_sum (fun x => x) v 0
  simp only [List.map_id', zero_add] at h
  exact h

/-- The function `mean` returns the arithmetic mean of a non-empty list. -/
theorem mean_eq (v : List ℝ) (hv : v ≠ []) : mean v = v.sum / (v.length : ℝ) := by
  unfold mean
  have : v.isEmpty = false := by
    cases v with
    | nil => exact absurd rfl hv
    | cons x xs => rfl
  rw [this, accumulate_eq_sum]
  simp

/-- The value of `std::min_element` is an element of the range and a lower
bound of it. -/
theorem minElement_spec (x : ℝ) (xs : List ℝ) :
    minElement x xs ∈ x :: xs ∧ ∀ y ∈ x :: xs, minElement x xs ≤ y := by
  induction xs generalizing x with
  | nil => simp [minElement]
  | cons z zs ih =>
    have hstep : minElement x (z :: zs) = minElement (if z < x then z else x) zs := rfl
    have hx : (if z < x then z else x) ≤ x := by
      split_ifs with hz
      · exact le_of_lt hz
      · exact le_refl _
    have hz : (if z < x then z else x) ≤ z := by
      split_ifs with hz
      · exact le_refl _
      · exact not_lt.mp hz
    have hm : (if z < x then z else x) = x ∨ (if z < x then z else x) = z := by
      split_ifs
      · exact Or.inr rfl
      · exact Or.inl rfl
    rw [hstep]
    generalize (if z < x then z else x) = m at hx hz hm
    obtain ⟨hmem, hle⟩ := ih m
    have hhead := hle m (List.mem_cons_self _ _)
    constructor
    · rcases List.mem_cons.mp hmem with h | h
      · rw [h]
        rcases hm with h1 | h1
        · rw [h1]; exact List.mem_cons_self _ _
        · rw [h1]; exact List.mem_cons_of_mem _ (List.mem_cons_self _ _)
      · exact List.mem_cons_of_mem _ (List.mem_cons_of_mem _ h)
    · intro y hy
      rcases List.mem_cons.mp hy with h | h
      · rw [h]
        exact le_trans hhead hx
      · rcases List.mem_cons.mp h with h | h
        · rw [h]
          exact le_trans hhead hz
        · exact hle y (List.mem_cons_of_mem _ h)

/-- The value of `std::max_element` is an element of the range and an upper
bound of it. -/
theorem maxElement_spec (x : ℝ) (xs : List ℝ) :
    maxElement x xs ∈ x :: xs ∧ ∀ y ∈ x :: xs, y ≤ maxElement x xs := by
  induction xs generalizing x with
  | nil => simp [maxElement]
  | cons z zs ih =>
    have hstep : maxElement x (z :: zs) = maxElement (if x < z then z else x) zs := rfl
    have hx : x ≤ (if x < z then z else x) := by
      split_ifs with hz
      · exact le_of_lt hz
      · exact le_refl _
    have hz : z ≤ (if x < z then z else x) := by
      split_ifs with hz
      · exact le_refl _
      · exact not_lt.mp hz
    have hm : (if x < z then z else x) = x ∨ (if x < z then z else x) = z := by
      split_ifs
      · exact Or.inr rfl
      · exact Or.inl rfl
    rw [hstep]
    generalize (if x < z then z else x) = m at hx hz hm
    obtain ⟨hmem, hle⟩ := ih m
    have hhead := hle m (List.mem_cons_self _ _)
    constructor
    · rcases List.mem_cons.mp hmem with h | h
      · rw [h]
        rcases hm with h1 | h1
        · rw [h1]; exact List.mem_cons_self _ _
        · rw [h1]; exact List.mem_cons_of_mem _ (List.mem_cons_self _ _)
      · exact List.mem_cons_of_mem _ (List.mem_cons_of_mem _ h)
    · intro y hy
      rcases List.mem_cons.mp hy with h | h
      · rw [h]
        exact le_trans hx hhead
      · rcases List.mem_cons.mp h with h | h
        · rw [h]
          exact le_trans hz hhead
        · exact hle y (List.mem_cons_of_mem _ h)

/-- The function `stdev` returns the sample standard deviation of a list of
at least two samples. -/
theorem stdev_eq (v : List ℝ) (hv : 2 ≤ v.length) :
    stdev Real.sqrt v
      = Real.sqrt ((v.map fun x => (x - v.sum / (v.length : ℝ)) ^ 2).sum
          / ((v.length : ℝ) - 1)) := by
  have hne : v ≠ [] := by
    intro h
    rw [h] at hv
    simp at hv
  unfold stdev
  rw [if_neg (by omega)]
  simp only
  rw [foldl_add_eq_sum (fun x => (x - mean v) * (x - mean v)) v 0, mean_eq v hne, zero_add]
  have hcast : (((v.length - 1 : Nat) : ℝ)) = (v.length : ℝ) - 1 := by
    rw [Nat.cast_sub (by omega)]
    simp
  rw [hcast]
  congr 2
  apply congrArg
  apply List.map_congr_left
  intro x _
  ring

/-- C13: the row built by `run_one_combo` is the row that its "Collect
results" block builds from the collected samples, and for every list `v` of
samples that row has `samples` the length of `v`, `avg_fps` the arithmetic
mean, `min_fps` and `max_fps` the least and the greatest element, `std_fps`
the sample standard deviation `sqrt (sum (x - mean)^2 / (n - 1))`, which is 0
for fewer than two samples; all five are 0 for the empty list. -/
theorem collectResults_statistics (closed : Bool) (ticks : List (Tick ℝ)) (reqRes : Int × Int)
    (build : String) (filter : FilterType) (useGPU useTransform : Bool)
    (warmup_sec sample_sec : Int) (v : List ℝ) :
    (run_one_combo Real.sqrt closed ticks reqRes build filter useGPU useTransform
        warmup_sec sample_sec).1
      = collectResults Real.sqrt reqRes.1 reqRes.2 build filter useGPU useTransform
          (sampleLoop warmup_sec sample_sec closed ticks []).1 ∧
    (collectResults Real.sqrt reqRes.1 reqRes.2 build filter useGPU useTransform v).samples
      = (v.length : Int) ∧
    (v ≠ [] →
      (collectResults Real.sqrt reqRes.1 reqRes.2 build filter useGPU useTransform v).avg_fps
        = v.sum / (v.length : ℝ) ∧
      (collectResults Real.sqrt reqRes.1 reqRes.2 build filter useGPU useTransform v).min_fps ∈ v ∧
      (∀ x ∈ v,
        (collectResults Real.sqrt reqRes.1 reqRes.2 build filter useGPU useTransform v).min_fps
          ≤ x) ∧
      (collectResults Real.sqrt reqRes.1 reqRes.2 build filter useGPU useTransform v).max_fps ∈ v ∧
      (∀ x ∈ v, x ≤
        (collectResults Real.sqrt reqRes.1 reqRes.2 build filter useGPU useTransform v).max_fps)) ∧
    (2 ≤ v.length →
      (collectResults Real.sqrt reqRes.1 reqRes.2 build filter useGPU useTransform v).std_fps
        = Real.sqrt ((v.map fun x => (x - v.sum / (v.length : ℝ)) ^ 2).sum
            / ((v.length : ℝ) - 1))) ∧
    (v.length < 2 →
      (collectResults Real.sqrt reqRes.1 reqRes.2 build filter useGPU useTransform v).std_fps
        = 0) ∧
    (v = [] →
      (collectResults Real.sqrt reqRes.1 reqRes.2 build filter useGPU useTransform v).avg_fps = 0 ∧
      (collectResults Real.sqrt reqRes.1 reqRes.2 build filter useGPU useTransform v).min_fps = 0 ∧
      (collectResults Real.sqrt reqRes.1 reqRes.2 build filter useGPU useTransform v).max_fps = 0 ∧
      (collectResults Real.sqrt reqRes.1 reqRes.2 build filter useGPU useTransform v).std_fps = 0 ∧
      (collectResults Real.sqrt reqRes.1 reqRes.2 build filter useGPU useTransform v).samples
        = 0) := by
  refine ⟨rfl, rfl, ?_, ?_, ?_, ?_⟩
  · intro hv
    refine ⟨mean_eq v hv, ?_⟩
    cases v with
    | nil => exact absurd rfl hv
    | cons x xs =>
      exact ⟨(minElement_spec x xs).1, (minElement_spec x xs).2,
        (maxElement_spec x xs).1, (maxElement_spec x xs).2⟩
  · intro hv
    exact stdev_eq v hv
  · intro hv
    show stdev Real.sqrt v = 0
    unfold stdev
    rw [if_pos hv]
  · intro hv
    subst hv
    refine ⟨?_, rfl, rfl, ?_, rfl⟩
    · show mean ([] : List ℝ) = 0
      simp [mean]
    · show stdev Real.sqrt ([] : List ℝ) = 0
      simp [stdev]

/-- Witness for C13: the samples 100 and 50. -/
theorem collectResults_statistics_witness :
    (collectResults Real.sqrt 640 480 "Release" FilterType.None false false
      ([100, 50] : List ℝ)).samples = 2 ∧
    (collectResults Real.sqrt 640 480 "Release" FilterType.None false false
      ([100, 50] : List ℝ)).avg_fps = 75 := by
  have h := collectResults_statistics false [] ((640 : Int), (480 : Int)) "Release"
    FilterType.None false false 1 5 ([100, 50] : List ℝ)
  refine ⟨h.2.1, ?_⟩
  rw [(h.2.2.1 (by simp)).1]
  norm_num

/-! ## Theorems: the sampling rule -/

/-- The samples that the render loop appends are the reciprocals of the
intervals of the executed ticks with a positive interval and an elapsed time
past the warmup, in order. -/
theorem sampleLoop_samples (warmup_sec sample_sec : Int) (closed : Bool)
    (ticks : List (Tick ℝ)) (acc : List ℝ) :
    (sampleLoop warmup_sec sample_sec closed ticks acc).1
      = acc ++ ((renderedTicks warmup_sec sample_sec closed ticks).filter
          fun t => decide (t.dt > 0 ∧ t.elapsedAtSample > (warmup_sec : ℝ))).map
          fun t => 1 / t.dt := by
  induction ticks generalizing closed acc with
  | nil => simp [sampleLoop, renderedTicks]
  | cons t ts ih =>
    unfold sampleLoop renderedTicks
    by_cases hc : closed = true
    · simp [hc]
    · simp only [hc, if_false, Bool.false_eq_true]
      by_cases hexit : t.elapsedAtExit > ((warmup_sec + sample_sec : Int) : ℝ)
      · simp only [hexit, if_true]
        by_cases hdt : t.dt > 0
        · by_cases hw : t.elapsedAtSample > (warmup_sec : ℝ)
          · simp [hdt, hw]
          · simp [hdt, hw]
        · simp [hdt]
      · simp only [hexit, if_false]
        rw [ih]
        by_cases hdt : t.dt > 0
        · by_cases hw : t.elapsedAtSample > (warmup_sec : ℝ)
          · simp [hdt, hw]
          · simp [hdt, hw]
        · simp [hdt]

/-- The executed ticks are an initial segment of the delivered ticks. -/
theorem renderedTicks_prefix (warmup_sec sample_sec : Int) (closed : Bool)
    (ticks : List (Tick ℝ)) :
    renderedTicks warmup_sec sample_sec closed ticks <+: ticks := by
  induction ticks generalizing closed with
  | nil => simp [renderedTicks]
  | cons t ts ih =>
    unfold renderedTicks
    by_cases hc : closed = true
    · simp [hc]
    · simp only [hc, if_false, Bool.false_eq_true]
      by_cases hexit : t.elapsedAtExit > ((warmup_sec + sample_sec : Int) : ℝ)
      · simp only [hexit, if_true]
        exact ⟨ts, rfl⟩
      · simp only [hexit, if_false]
        exact (List.prefix_cons_inj t).mpr (ih t.closeRequested)

/-- The mean of positive samples is not negative. -/
theorem mean_nonneg (v : List ℝ) (hpos : ∀ x ∈ v, 0 < x) : 0 ≤ mean v := by
  by_cases hv : v = []
  · subst hv
    simp [mean]
  · rw [mean_eq v hv]
    apply div_nonneg
    · exact List.sum_nonneg fun x hx => le_of_lt (hpos x hx)
    · exact Nat.cast_nonneg _

/-- C14: over every sequence of ticks, the samples that `run_one_combo`
records are exactly the values `1 / dt` of the executed ticks whose interval
`dt` is positive and whose elapsed time is past the warmup, in order; hence a
run whose executed ticks all lie in the warmup records nothing, every
recorded sample is positive, and the resulting row has `samples ≥ 0` and
`avg_fps ≥ 0`. -/
theorem run_one_combo_sampling_rule (closed : Bool) (ticks : List (Tick ℝ))
    (reqRes : Int × Int) (build : String) (filter : FilterType) (useGPU useTransform : Bool)
    (warmup_sec sample_sec : Int) :
    (sampleLoop warmup_sec sample_sec closed ticks []).1
      = ((renderedTicks warmup_sec sample_sec closed ticks).filter
          fun t => decide (t.dt > 0 ∧ t.elapsedAtSample > (warmup_sec : ℝ))).map
          (fun t => 1 / t.dt) ∧
    renderedTicks warmup_sec sample_sec closed ticks <+: ticks ∧
    ((∀ t ∈ renderedTicks warmup_sec sample_sec closed ticks,
        t.elapsedAtSample ≤ (warmup_sec : ℝ)) →
      (sampleLoop warmup_sec sample_sec closed ticks []).1 = []) ∧
    (∀ x ∈ (sampleLoop warmup_sec sample_sec closed ticks []).1, 0 < x) ∧
    0 ≤ (run_one_combo Real.sqrt closed ticks reqRes build filter useGPU useTransform
          warmup_sec sample_sec).1.samples ∧
    0 ≤ (run_one_combo Real.sqrt closed ticks reqRes build filter useGPU useTransform
          warmup_sec sample_sec).1.avg_fps := by
  have hs := sampleLoop_samples warmup_sec sample_sec closed ticks []
  rw [List.nil_append] at hs
  have hpos : ∀ x ∈ (sampleLoop warmup_sec sample_sec closed ticks []).1, 0 < x := by
    intro x hx
    rw [hs] at hx
    obtain ⟨t, ht, rfl⟩ := List.mem_map.mp hx
    have hcond := (List.mem_filter.mp ht).2
    have hdt : t.dt > 0 := (of_decide_eq_true hcond).1
    exact one_div_pos.mpr hdt
  refine ⟨hs, renderedTicks_prefix _ _ _ _, ?_, hpos, ?_, ?_⟩
  · intro hall
    rw [hs, List.map_eq_nil_iff, List.filter_eq_nil_iff]
    intro t ht hcond
    have h2 : t.elapsedAtSample > (warmup_sec : ℝ) := (of_decide_eq_true hcond).2
    exact absurd (hall t ht) (not_le.mpr h2)
  · show (0 : Int) ≤ ((sampleLoop warmup_sec sample_sec closed ticks []).1.length : Int)
    exact Int.natCast_nonneg _
  · show 0 ≤ mean (sampleLoop warmup_sec sample_sec closed ticks []).1
    exact mean_nonneg _ hpos

/-- Witness for C14: one tick in the warmup, one sampled tick, one tick with
a zero interval and one tick past the sampling window. -/
theorem run_one_combo_sampling_rule_witness :
    (sampleLoop 1 5 false
      ([⟨false, 1 / 10, 1 / 2, 1 / 2⟩, ⟨false, 1 / 100, 2, 2⟩, ⟨false, 0, 3, 3⟩,
        ⟨false, 1 / 50, 7, 7⟩] : List (Tick ℝ)) []).1 = [100, 50] ∧
    ∀ x ∈ (sampleLoop 1 5 false
      ([⟨false, 1 / 10, 1 / 2, 1 / 2⟩, ⟨false, 1 / 100, 2, 2⟩, ⟨false, 0, 3, 3⟩,
        ⟨false, 1 / 50, 7, 7⟩] : List (Tick ℝ)) []).1, 0 < x := by
  have h := run_one_combo_sampling_rule false
    ([⟨false, 1 / 10, 1 / 2, 1 / 2⟩, ⟨false, 1 / 100, 2, 2⟩, ⟨false, 0, 3, 3⟩,
      ⟨false, 1 / 50, 7, 7⟩] : List (Tick ℝ)) ((640 : Int), (480 : Int)) "Release"
    FilterType.None false false 1 5
  refine ⟨?_, h.2.2.2.1⟩
  simp only [sampleLoop]
  norm_num

/-! ## Theorems: the CSV report -/

/-- Appending strings one after another from `a` is `a` followed by their
concatenation. -/
theorem foldl_append_eq (l : List String) (a : String) :
    l.foldl (fun r s => r ++ s) a = a ++ String.join l := by
  induction l generalizing a with
  | nil => simp [String.join]
  | cons x xs ih =>
    have h1 := ih (a ++ x)
    have h2 := ih ("" ++ x)
    simp only [List.foldl_cons, String.join] at h1 h2 ⊢
    rw [h1, h2, String.empty_append, String.append_assoc]

/-- The concatenation of a list of strings, one element at a time. -/
theorem join_cons (x : String) (xs : List String) :
    String.join (x :: xs) = x ++ String.join xs := by
  have h := foldl_append_eq xs ("" ++ x)
  rw [String.empty_append] at h
  exact h

/-- The text that `write_summary_csv` appends for one row is `csvLine`. -/
theorem csvLine_eq {α : Type} (fmt : α → String) (r : BenchResultRow α) (f : String) :
    f ++ r.mode ++ "," ++ r.filter ++ "," ++ r.transform ++ ","
        ++ r.resolution ++ "," ++ r.build ++ ","
        ++ fmt r.avg_fps ++ "," ++ fmt r.min_fps ++ "," ++ fmt r.max_fps ++ ","
        ++ fmt r.std_fps ++ "," ++ toString r.samples ++ "\n"
      = f ++ csvLine fmt r := by
  simp only [csvLine, String.intercalate, String.intercalate.go, String.append_assoc]

/-- Writing rows after any text appends their lines in order. -/
theorem write_rows_from {α : Type} (fmt : α → String) (rows : List (BenchResultRow α))
    (f0 : String) :
    rows.foldl
      (fun f r =>
        f ++ r.mode ++ "," ++ r.filter ++ "," ++ r.transform ++ ","
          ++ r.resolution ++ "," ++ r.build ++ ","
          ++ fmt r.avg_fps ++ "," ++ fmt r.min_fps ++ "," ++ fmt r.max_fps ++ ","
          ++ fmt r.std_fps ++ "," ++ toString r.samples ++ "\n") f0
      = f0 ++ String.join (rows.map (csvLine fmt)) := by
  induction rows generalizing f0 with
  | nil => simp [String.join]
  | cons r rs ih =>
    rw [List.foldl_cons, ih, csvLine_eq, List.map_cons, join_cons, String.append_assoc]

/-- C17: for every list of rows `write_summary_csv` emits the header
`mode, filter, transform, resolution, build, avg_fps, min_fps, max_fps,
std_fps, samples` and then one line per row, in list order, with the row's ten
fields in that order; in every row built by `run_one_combo` the resolution
field is the decimal width, the letter `x` and the decimal height, and the
transform field is `On` when the transform is enabled and `Off` otherwise. -/
theorem write_summary_csv_format (fmt : ℝ → String) (rows : List (BenchResultRow ℝ))
    (closed : Bool) (ticks : List (Tick ℝ)) (w h : Nat) (build : String) (filter : FilterType)
    (useGPU useTransform : Bool) (warmup_sec sample_sec : Int) :
    write_summary_csv fmt rows
      = String.intercalate ","
          ["mode", "filter", "transform", "resolution", "build", "avg_fps", "min_fps",
            "max_fps", "std_fps", "samples"] ++ "\n"
        ++ String.join (rows.map fun r =>
            String.intercalate ","
              [r.mode, r.filter, r.transform, r.resolution, r.build, fmt r.avg_fps,
                fmt r.min_fps, fmt r.max_fps, fmt r.std_fps, toString r.samples] ++ "\n") ∧
    (run_one_combo Real.sqrt closed ticks ((w : Int), (h : Int)) build filter useGPU
        useTransform warmup_sec sample_sec).1.resolution = Nat.repr w ++ "x" ++ Nat.repr h ∧
    (run_one_combo Real.sqrt closed ticks ((w : Int), (h : Int)) build filter useGPU
        useTransform warmup_sec sample_sec).1.transform
      = (if useTransform then "On" else "Off") := by
  refine ⟨?_, rfl, rfl⟩
  unfold write_summary_csv
  rw [write_rows_from]
  rfl

/-! ## Theorems: the configuration matrix and the stop signal -/

/-- Once the close flag is set, the render loop returns at once with no
sample. -/
theorem sampleLoop_closed (warmup_sec sample_sec : Int) (ticks : List (Tick ℝ)) (acc : List ℝ) :
    sampleLoop warmup_sec sample_sec true ticks acc = (acc, true) := by
  cases ticks with
  | nil => rfl
  | cons t ts => simp [sampleLoop]

/-- The render loop never clears the close flag. -/
theorem sampleLoop_closed_mono (warmup_sec sample_sec : Int) (ticks : List (Tick ℝ))
    (acc : List ℝ) (closed : Bool) (h : closed = true) :
    (sampleLoop warmup_sec sample_sec closed ticks acc).2 = true := by
  subst h
  rw [sampleLoop_closed]

/-- The row of a configuration that collected no sample. -/
theorem collectResults_nil (texW texH : Int) (build : String) (filter : FilterType)
    (useGPU useTransform : Bool) :
    (collectResults Real.sqrt texW texH build filter useGPU useTransform []).samples = 0 ∧
    (collectResults Real.sqrt texW texH build filter useGPU useTransform []).avg_fps = 0 ∧
    (collectResults Real.sqrt texW texH build filter useGPU useTransform []).min_fps = 0 ∧
    (collectResults Real.sqrt texW texH build filter useGPU useTransform []).max_fps = 0 ∧
    (collectResults Real.sqrt texW texH build filter useGPU useTransform []).std_fps = 0 := by
  refine ⟨rfl, ?_, rfl, rfl, ?_⟩
  · show mean ([] : List ℝ) = 0
    simp [mean]
  · show stdev Real.sqrt ([] : List ℝ) = 0
    simp [stdev]

/-- Running the loop body over a list of configurations appends one row per
configuration, in order, each with the descriptive fields of its
configuration; if the close flag was set before, it stays set and every
appended row is without samples. -/
theorem bench_fold (build : String) (env : Nat → List (Tick ℝ))
    (cs : List (Bool × FilterType × Bool × (Int × Int))) (st : BenchState ℝ) :
    ∃ rest : List (BenchResultRow ℝ),
      (cs.foldl (fun st c => benchStep Real.sqrt build env st c.1 c.2.1 c.2.2.1 c.2.2.2)
        st).results = st.results ++ rest ∧
      rest.map BenchResultRow.descriptor = cs.map describe ∧
      (st.closed = true →
        (cs.foldl (fun st c => benchStep Real.sqrt build env st c.1 c.2.1 c.2.2.1 c.2.2.2)
          st).closed = true ∧
        ∀ row ∈ rest, row.IsZero) := by
  induction cs generalizing st with
  | nil => exact ⟨[], by simp, rfl, fun h => ⟨h, by simp⟩⟩
  | cons c cs ih =>
    obtain ⟨rest, h1, h2, h3⟩ := ih (benchStep Real.sqrt build env st c.1 c.2.1 c.2.2.1 c.2.2.2)
    refine ⟨(run_one_combo Real.sqrt st.closed (env st.results.length) c.2.2.2 build c.2.1 c.1
      c.2.2.1 1 5).1 :: rest, ?_, ?_, ?_⟩
    · rw [List.foldl_cons, h1]
      simp [benchStep]
    · rw [List.map_cons, List.map_cons, h2]
      rfl
    · intro hc
      have hstep : (benchStep Real.sqrt build env st c.1 c.2.1 c.2.2.1 c.2.2.2).closed = true := by
        simp only [benchStep, run_one_combo]
        exact sampleLoop_closed_mono _ _ _ _ _ hc
      refine ⟨(h3 hstep).1, ?_⟩
      intro row hrow
      rcases List.mem_cons.mp hrow with h | h
      · rw [h]
        simp only [run_one_combo]
        rw [hc, sampleLoop_closed]
        exact collectResults_nil _ _ _ _ _ _
      · exact (h3 hstep).2 row h

/-- The loop nest visits the 36 configurations of `configs` in order. -/
theorem benchLoops_eq (build : String) (env : Nat → List (Tick ℝ)) :
    benchLoops Real.sqrt build env
      = configs.foldl (fun st c => benchStep Real.sqrt build env st c.1 c.2.1 c.2.2.1 c.2.2.2)
          { results := [], closed := false } := rfl

/-- There are 36 configurations. -/
theorem configs_length : configs.length = 36 := by decide

/-- The descriptive fields of the rows of a run are those of the
configurations, in order. -/
theorem results_descriptors (build : String) (env : Nat → List (Tick ℝ)) :
    (benchLoops Real.sqrt build env).results.map BenchResultRow.descriptor
      = configs.map describe := by
  obtain ⟨rest, h1, h2, _⟩ := bench_fold build env configs { results := [], closed := false }
  rw [benchLoops_eq, h1, List.nil_append, h2]

/-- The configuration at index `((m * 3 + f) * 2 + t) * 3 + r` has mode `m`,
filter `f`, transform `t` and resolution `r`. -/
theorem configs_describe_index (m f t r : Nat) (hm : m < 2) (hf : f < 3) (ht : t < 2)
    (hr : r < 3) :
    (configs.map describe)[((m * 3 + f) * 2 + t) * 3 + r]?
      = some (["CPU", "GPU"].getD m "", ["None", "Pixelate", "SinCity"].getD f "",
          ["Off", "On"].getD t "", ["640x480", "1280x720", "1920x1080"].getD r "") := by
  interval_cases m <;> interval_cases f <;> interval_cases t <;> interval_cases r <;> rfl

/-- C15: `run_benchmark_mode` produces exactly 36 result rows; the row at
index `((m * 3 + f) * 2 + t) * 3 + r` carries mode `m` of (CPU, GPU), filter
`f` of (None, Pixelate, SinCity), transform `t` of (Off, On) and resolution
`r` of (640x480, 1280x720, 1920x1080); no two rows carry the same
configuration. -/
theorem run_benchmark_mode_enumerates (fmt : ℝ → String) (build : String)
    (env : Nat → List (Tick ℝ)) :
    (run_benchmark_mode Real.sqrt fmt build env).1.length = 36 ∧
    (∀ m f t r : Nat, m < 2 → f < 3 → t < 2 → r < 3 →
      ∃ row : BenchResultRow ℝ,
        (run_benchmark_mode Real.sqrt fmt build env).1[((m * 3 + f) * 2 + t) * 3 + r]?
          = some row ∧
        row.mode = ["CPU", "GPU"].getD m "" ∧
        row.filter = ["None", "Pixelate", "SinCity"].getD f "" ∧
        row.transform = ["Off", "On"].getD t "" ∧
        row.resolution = ["640x480", "1280x720", "1920x1080"].getD r "") ∧
    ((run_benchmark_mode Real.sqrt fmt build env).1.map BenchResultRow.descriptor).Nodup := by
  have hd := results_descriptors build env
  refine ⟨?_, ?_, ?_⟩
  · have h := congrArg List.length hd
    rw [List.length_map, List.length_map, configs_length] at h
    exact h
  · intro m f t r hm hf ht hr
    have hi := configs_describe_index m f t r hm hf ht hr
    rw [← hd, List.getElem?_map] at hi
    obtain ⟨row, hrow, hdesc⟩ := Option.map_eq_some'.mp hi
    refine ⟨row, hrow, ?_, ?_, ?_, ?_⟩
    · exact congrArg (fun d => d.1) hdesc
    · exact congrArg (fun d => d.2.1) hdesc
    · exact congrArg (fun d => d.2.2.1) hdesc
    · exact congrArg (fun d => d.2.2.2) hdesc
  · show ((benchLoops Real.sqrt build env).results.map BenchResultRow.descriptor).Nodup
    rw [hd]
    decide

/-- Witness for C15: index 33 is `m = 1`, `f = 2`, `t = 1`, `r = 0`, the
configuration GPU, SinCity, On, 640x480. -/
theorem run_benchmark_mode_enumerates_witness :
    ∃ row : BenchResultRow ℝ,
      (run_benchmark_mode Real.sqrt (fun _ => "") "Release"
        (closingEnv : Nat → List (Tick ℝ))).1[33]? = some row ∧
      row.mode = "GPU" ∧ row.filter = "SinCity" ∧ row.transform = "On" ∧
      row.resolution = "640x480" :=
  (run_benchmark_mode_enumerates (fun _ => "") "Release"
    (closingEnv : Nat → List (Tick ℝ))).2.1 1 2 1 0 (by decide) (by decide) (by decide)
    (by decide)

/-- The loop nest is its first `k` calls followed by the remaining ones. -/
theorem benchLoops_split (build : String) (env : Nat → List (Tick ℝ)) (k : Nat) :
    benchLoops Real.sqrt build env
      = (configs.drop k).foldl
          (fun st c => benchStep Real.sqrt build env st c.1 c.2.1 c.2.2.1 c.2.2.2)
          (benchPrefix Real.sqrt build env k) := by
  rw [benchLoops_eq, benchPrefix, ← List.foldl_append, List.take_append_drop]

/-- After `k ≤ 36` calls the vector `results` holds `k` rows. -/
theorem benchPrefix_length (build : String) (env : Nat → List (Tick ℝ)) (k : Nat)
    (hk : k ≤ 36) : (benchPrefix Real.sqrt build env k).results.length = k := by
  obtain ⟨rest, h1, h2, _⟩ :=
    bench_fold build env (configs.take k) { results := [], closed := false }
  have hlen := congrArg List.length h2
  rw [List.length_map, List.length_map, List.length_take, configs_length] at hlen
  unfold benchPrefix
  rw [h1, List.nil_append, hlen]
  omega

/-- With `closingEnv` the close flag is set when the first call returns. -/
theorem closingEnv_first_call (build : String) :
    (benchPrefix Real.sqrt build (closingEnv : Nat → List (Tick ℝ)) 1).closed = true := by
  have hc : configs.take 1 = [(false, FilterType.None, false, ((640 : Int), (480 : Int)))] := by
    decide
  unfold benchPrefix
  rw [hc]
  simp only [List.foldl_cons, List.foldl_nil, benchStep, run_one_combo, closingEnv, sampleLoop]
  norm_num

/-- If the close flag is set after `k + 1` calls, the final `results` are the
rows recorded by then followed by rows without samples, and the report is the
report of the rows recorded by then followed by further lines. -/
theorem bench_after_stop (fmt : ℝ → String) (build : String) (env : Nat → List (Tick ℝ))
    (k : Nat) (_ : k < 36)
    (hstop : (benchPrefix Real.sqrt build env (k + 1)).closed = true) :
    ∃ rest : List (BenchResultRow ℝ),
      (benchLoops Real.sqrt build env).results
        = (benchPrefix Real.sqrt build env (k + 1)).results ++ rest ∧
      rest.length = 36 - (k + 1) ∧
      (∀ row ∈ rest, row.IsZero) ∧
      write_summary_csv fmt (benchLoops Real.sqrt build env).results
        = write_summary_csv fmt (benchPrefix Real.sqrt build env (k + 1)).results
          ++ String.join (rest.map (csvLine fmt)) := by
  obtain ⟨rest, h1, h2, h3⟩ :=
    bench_fold build env (configs.drop (k + 1)) (benchPrefix Real.sqrt build env (k + 1))
  rw [← benchLoops_split] at h1
  have hlen := congrArg List.length h2
  rw [List.length_map, List.length_map, List.length_drop, configs_length] at hlen
  refine ⟨rest, h1, hlen, (h3 hstop).2, ?_⟩
  rw [h1]
  unfold write_summary_csv
  rw [List.foldl_append, write_rows_from fmt rest]

/-- The first component of `run_benchmark_mode` is the vector `results`. -/
theorem run_benchmark_mode_results (fmt : ℝ → String) (build : String)
    (env : Nat → List (Tick ℝ)) :
    (run_benchmark_mode Real.sqrt fmt build env).1
      = (benchLoops Real.sqrt build env).results := by
  simp only [run_benchmark_mode]

/-- The second component of `run_benchmark_mode` is the report. -/
theorem run_benchmark_mode_report (fmt : ℝ → String) (build : String)
    (env : Nat → List (Tick ℝ)) :
    (run_benchmark_mode Real.sqrt fmt build env).2
      = write_summary_csv fmt (benchLoops Real.sqrt build env).results := by
  simp only [run_benchmark_mode]

/-- C16 (counterexample): when the window is closed during the first
configuration, `run_benchmark_mode` still returns 36 rows: the close flag is
set after the first call, and the second row (CPU, None, Off, 1280x720) is
appended all the same, without samples. -/
theorem stop_signal_keeps_appending_rows :
    (benchPrefix Real.sqrt "Release" (closingEnv : Nat → List (Tick ℝ)) 1).closed = true ∧
    (benchPrefix Real.sqrt "Release" (closingEnv : Nat → List (Tick ℝ)) 1).results.length = 1 ∧
    (run_benchmark_mode Real.sqrt (fun _ => "") "Release"
      (closingEnv : Nat → List (Tick ℝ))).1.length = 36 ∧
    ∃ row : BenchResultRow ℝ,
      (run_benchmark_mode Real.sqrt (fun _ => "") "Release"
        (closingEnv : Nat → List (Tick ℝ))).1[1]? = some row ∧
      row.descriptor = ("CPU", "None", "Off", "1280x720") ∧ row.samples = 0 := by
  have hd := results_descriptors "Release" (closingEnv : Nat → List (Tick ℝ))
  have hlen : (benchLoops Real.sqrt "Release" (closingEnv : Nat → List (Tick ℝ))).results.length
      = 36 := by
    have h := congrArg List.length hd
    rw [List.length_map, List.length_map, configs_length] at h
    exact h
  obtain ⟨rest, h1, _, h3, _⟩ :=
    bench_after_stop (fun _ => "") "Release" (closingEnv : Nat → List (Tick ℝ)) 0 (by decide)
      (closingEnv_first_call "Release")
  have hp := benchPrefix_length "Release" (closingEnv : Nat → List (Tick ℝ)) (0 + 1) (by decide)
  rw [run_benchmark_mode_results]
  refine ⟨closingEnv_first_call "Release", hp, hlen, ?_⟩
  have hi := configs_describe_index 0 0 0 1 (by decide) (by decide) (by decide) (by decide)
  rw [← hd, List.getElem?_map] at hi
  obtain ⟨row, hrow, hdesc⟩ := Option.map_eq_some'.mp hi
  refine ⟨row, hrow, hdesc, ?_⟩
  have hrow2 : (benchLoops Real.sqrt "Release" (closingEnv : Nat → List (Tick ℝ))).results[1]?
      = some row := hrow
  rw [h1, List.getElem?_append_right (by rw [hp])] at hrow2
  exact (h3 row (List.getElem?_mem hrow2)).1

/-- C16 (amended): once the stop signal is set during configuration `k`,
`run_benchmark_mode` still appends one row for every later configuration,
each without samples and with all statistics 0, so that 36 rows are
returned; the rows recorded up to configuration `k` are the first rows of
the final results, and the report starts with the report of those rows. -/
theorem stop_signal_preserves_rows (fmt : ℝ → String) (build : String)
    (env : Nat → List (Tick ℝ)) (k : Nat) (hk : k < 36)
    (hstop : (benchPrefix Real.sqrt build env (k + 1)).closed = true) :
    (run_benchmark_mode Real.sqrt fmt build env).1.length = 36 ∧
    (run_benchmark_mode Real.sqrt fmt build env).1.take (k + 1)
      = (benchPrefix Real.sqrt build env (k + 1)).results ∧
    (∀ j : Nat, k < j → j < 36 →
      ∃ row : BenchResultRow ℝ,
        (run_benchmark_mode Real.sqrt fmt build env).1[j]? = some row ∧ row.IsZero) ∧
    ∃ tail : String,
      (run_benchmark_mode Real.sqrt fmt build env).2
        = write_summary_csv fmt (benchPrefix Real.sqrt build env (k + 1)).results ++ tail := by
  obtain ⟨rest, h1, h2, h3, h4⟩ := bench_after_stop fmt build env k hk hstop
  have hp := benchPrefix_length build env (k + 1) (by omega)
  rw [run_benchmark_mode_results, run_benchmark_mode_report]
  refine ⟨?_, ?_, ?_, ⟨_, h4⟩⟩
  · rw [h1, List.length_append, hp, h2]
    omega
  · rw [h1]
    exact List.take_left' hp
  · intro j hj1 hj2
    have hlt : j - (k + 1) < rest.length := by omega
    refine ⟨rest[j - (k + 1)], ?_, h3 _ (List.getElem_mem _)⟩
    rw [h1, List.getElem?_append_right (by omega), hp]
    exact List.getElem?_eq_getElem hlt

/-- Witness for C16 (amended): the window is closed during the first
configuration (`k = 0`). -/
theorem stop_signal_preserves_rows_witness :
    (benchPrefix Real.sqrt "Release" (closingEnv : Nat → List (Tick ℝ)) (0 + 1)).closed = true ∧
    (run_benchmark_mode Real.sqrt (fun _ => "") "Release"
      (closingEnv : Nat → List (Tick ℝ))).1.length = 36 :=
  ⟨closingEnv_first_call "Release",
    (stop_signal_preserves_rows (fun _ => "") "Release" (closingEnv : Nat → List (Tick ℝ)) 0
      (by decide) (closingEnv_first_call "Release")).1⟩

/-! ## Theorems: the uniforms of the shader backend -/

/-- C18 (counterexample): for `thresh = 300`, a value that the `int` field of
`FilterParams` holds, `GpuPipeline::draw` writes `300 / 255` to the threshold
uniform, which is above 1; for `thresh = -5` it writes `-5 / 255`, which is
below 0. -/
theorem draw_threshold_not_clamped :
    (GpuPipeline.allResolved.draw Real.cos Real.sin 640 480 FilterType.SinCity
        { pixelBlock := 8, keepBGR := ⟨20, 20, 200⟩, thresh := 300 }
        (AffineParams.init : AffineParams ℝ)).uThresh = some (((300 : Int) : ℝ) / 255) ∧
    (1 : ℝ) < ((300 : Int) : ℝ) / 255 ∧
    (GpuPipeline.allResolved.draw Real.cos Real.sin 640 480 FilterType.SinCity
        { pixelBlock := 8, keepBGR := ⟨20, 20, 200⟩, thresh := -5 }
        (AffineParams.init : AffineParams ℝ)).uThresh = some (((-5 : Int) : ℝ) / 255) ∧
    ((-5 : Int) : ℝ) / 255 < 0 := by
  refine ⟨rfl, by norm_num, rfl, by norm_num⟩

/-- C18 (amended): for every `FilterParams` whose keep colour holds bytes,
`GpuPipeline::draw` writes to each uniform that the selected program has
(location `≥ 0`): the keep-colour uniform receives the keep colour reordered
from (B,G,R) to (R,G,B) with each channel divided by 255, each component in
`[0, 1]`; the threshold uniform receives `thresh / 255`, passed through
without clamping, so it lies in `[0, 1]` exactly when `0 ≤ thresh ≤ 255`; the
block uniform receives `max(1, pixelBlock)`, which for `pixelBlock ≥ 2` is the
block size `max(2, pixelBlock)` of the CPU pixelate. -/
theorem draw_uniform_contract (gpu : GpuPipeline) (texW texH : Int) (fp : FilterParams)
    (ap : AffineParams ℝ)
    (hbytes : fp.keepBGR.b ≤ 255 ∧ fp.keepBGR.g ≤ 255 ∧ fp.keepBGR.r ≤ 255) :
    (0 ≤ gpu.loc_uKeep_sc_ →
      (gpu.draw Real.cos Real.sin texW texH FilterType.SinCity fp ap).uKeepColor
        = some ((fp.keepBGR.r : ℝ) / 255, (fp.keepBGR.g : ℝ) / 255, (fp.keepBGR.b : ℝ) / 255) ∧
      (0 ≤ (fp.keepBGR.r : ℝ) / 255 ∧ (fp.keepBGR.r : ℝ) / 255 ≤ 1) ∧
      (0 ≤ (fp.keepBGR.g : ℝ) / 255 ∧ (fp.keepBGR.g : ℝ) / 255 ≤ 1) ∧
      (0 ≤ (fp.keepBGR.b : ℝ) / 255 ∧ (fp.keepBGR.b : ℝ) / 255 ≤ 1)) ∧
    (0 ≤ gpu.loc_uThresh_sc_ →
      (gpu.draw Real.cos Real.sin texW texH FilterType.SinCity fp ap).uThresh
        = some ((fp.thresh : ℝ) / 255) ∧
      ((0 ≤ (fp.thresh : ℝ) / 255 ∧ (fp.thresh : ℝ) / 255 ≤ 1) ↔
        (0 ≤ fp.thresh ∧ fp.thresh ≤ 255))) ∧
    (0 ≤ gpu.loc_uBlock_pix_ →
      (gpu.draw Real.cos Real.sin texW texH FilterType.Pixelate fp ap).uBlock
        = some ((max 1 fp.pixelBlock : Int) : ℝ) ∧
      (2 ≤ fp.pixelBlock →
        (gpu.draw Real.cos Real.sin texW texH FilterType.Pixelate fp ap).uBlock
          = some ((max 2 fp.pixelBlock : Int) : ℝ))) := by
  refine ⟨?_, ?_, ?_⟩
  · intro hloc
    have hb : ((fp.keepBGR.b : ℝ)) ≤ 255 := by exact_mod_cast hbytes.1
    have hg : ((fp.keepBGR.g : ℝ)) ≤ 255 := by exact_mod_cast hbytes.2.1
    have hr : ((fp.keepBGR.r : ℝ)) ≤ 255 := by exact_mod_cast hbytes.2.2
    have hb0 : (0 : ℝ) ≤ (fp.keepBGR.b : ℝ) := Nat.cast_nonneg _
    have hg0 : (0 : ℝ) ≤ (fp.keepBGR.g : ℝ) := Nat.cast_nonneg _
    have hr0 : (0 : ℝ) ≤ (fp.keepBGR.r : ℝ) := Nat.cast_nonneg _
    refine ⟨?_, ⟨?_, ?_⟩, ⟨?_, ?_⟩, ⟨?_, ?_⟩⟩
    · simp only [GpuPipeline.draw]
      rw [if_pos hloc]
    · exact div_nonneg hr0 (by norm_num)
    · rw [div_le_one (by norm_num)]; exact hr
    · exact div_nonneg hg0 (by norm_num)
    · rw [div_le_one (by norm_num)]; exact hg
    · exact div_nonneg hb0 (by norm_num)
    · rw [div_le_one (by norm_num)]; exact hb
  · intro hloc
    refine ⟨?_, ?_⟩
    · simp only [GpuPipeline.draw]
      rw [if_pos hloc]
    · rw [div_le_one (by norm_num), le_div_iff₀ (by norm_num), zero_mul]
      constructor
      · rintro ⟨h0, h1⟩
        exact ⟨by exact_mod_cast h0, by exact_mod_cast h1⟩
      · rintro ⟨h0, h1⟩
        exact ⟨by exact_mod_cast h0, by exact_mod_cast h1⟩
  · intro hloc
    have hw : (gpu.draw Real.cos Real.sin texW texH FilterType.Pixelate fp ap).uBlock
        = some ((max 1 fp.pixelBlock : Int) : ℝ) := by
      simp only [GpuPipeline.draw]
      rw [if_pos hloc]
    refine ⟨hw, ?_⟩
    intro h2
    have : max 1 fp.pixelBlock = max 2 fp.pixelBlock := by omega
    rw [hw, this]

/-- Witness for C18 (amended): the default filter parameters, every uniform
resolved, on a 640x480 texture: the threshold uniform receives `60 / 255`. -/
theorem draw_uniform_contract_witness :
    ((20 : Nat) ≤ 255 ∧ (20 : Nat) ≤ 255 ∧ (200 : Nat) ≤ 255) ∧
    (0 : Int) ≤ GpuPipeline.allResolved.loc_uThresh_sc_ ∧
    (GpuPipeline.allResolved.draw Real.cos Real.sin 640 480 FilterType.SinCity
      FilterParams.init (AffineParams.init : AffineParams ℝ)).uThresh
      = some (((60 : Int) : ℝ) / 255) :=
  ⟨by decide, by decide,
    ((draw_uniform_contract GpuPipeline.allResolved 640 480 FilterParams.init
      (AffineParams.init : AffineParams ℝ) (by decide)).2.1 (by decide)).1⟩

/-! ## Theorems: the display of the CPU path -/

/-- In the CPU path with the transform enabled, and outside the guard of
`warpCpuAffine`, a tick on a non-empty frame uploads the resampled and
filtered frame and displays it with `affineMatrix` of the same parameters. -/
theorem renderTick_cpu_transform (lum : Vec3b → Nat) (gpu : GpuPipeline)
    (loc_uTex loc_uAff : Int) (frame : Mat) (texW texH : Int) (fp : FilterParams)
    (ap : AffineParams ℝ) (hne : frame.empty = false) (hloc : 0 ≤ loc_uAff)
    (hguard : ¬ (ap.scale = 1 ∧ |ap.thetaDeg| < 1 / 10000 ∧ |ap.tx| < 1 / 10000
      ∧ |ap.ty| < 1 / 10000)) :
    ∃ r : TickRender ℝ,
      renderTick Real.cos Real.sin lum gpu loc_uTex loc_uAff frame texW texH FilterType.None fp
        false true ap = Except.ok r ∧
      warpCpuAffine Real.cos Real.sin frame ap = Except.ok r.texture ∧
      r.call.prog = FilterType.None ∧
      r.call.uAffine = some (affineMatrix Real.cos Real.sin ap texW texH) := by
  have hw : warpCpuAffine Real.cos Real.sin frame ap
      = Except.ok { rows := frame.rows, cols := frame.cols,
                    px := fun y x => warpPixel frame
                      (invertAffineTransform (makeAffine23 Real.cos Real.sin ap
                        (frame.cols : Int) (frame.rows : Int))) y x } := by
    rw [warpCpuAffine_resample frame ap hguard]
    unfold warpAffine
    rw [hne]
    rfl
  refine ⟨{ texture := { rows := frame.rows, cols := frame.cols,
                         px := fun y x => warpPixel frame
                           (invertAffineTransform (makeAffine23 Real.cos Real.sin ap
                             (frame.cols : Int) (frame.rows : Int))) y x }
            call := { prog := FilterType.None
                      uTex := if loc_uTex ≥ 0 then some 0 else none
                      uAffine := some (affineMatrix Real.cos Real.sin ap texW texH)
                      uTexSize := none, uBlock := none, uKeepColor := none, uThresh := none } },
    ?_, hw, rfl, rfl⟩
  simp only [renderTick, Bool.false_eq_true, if_false, if_true, hw, applyCpuFilter, ge_iff_le,
    hloc]

/-- C19 (evaluation at the failing input): in the benchmark configuration
CPU, None, transform On, 640x480, with the benchmark's parameters
(`tx = 60`, `ty = 40`, `scale = 1.15`, `thetaDeg = 8`), the tick uploads the
frame already resampled by `warpCpuAffine` and the pass-through program is
given `affineMatrix` of the same parameters, which is not the identity
matrix. -/
theorem cpu_path_display_not_identity :
    ∃ r : TickRender ℝ,
      renderTick Real.cos Real.sin lumBT601 GpuPipeline.allResolved 0 1
        (gradientFrame 640 480) 640 480 FilterType.None FilterParams.init false true
        (⟨60, 40, 23 / 20, 8⟩ : AffineParams ℝ) = Except.ok r ∧
      warpCpuAffine Real.cos Real.sin (gradientFrame 640 480)
        (⟨60, 40, 23 / 20, 8⟩ : AffineParams ℝ) = Except.ok r.texture ∧
      r.call.prog = FilterType.None ∧
      r.call.uAffine
        = some (affineMatrix Real.cos Real.sin (⟨60, 40, 23 / 20, 8⟩ : AffineParams ℝ) 640 480) ∧
      affineMatrix Real.cos Real.sin (⟨60, 40, 23 / 20, 8⟩ : AffineParams ℝ) 640 480 ≠ 1 := by
  obtain ⟨r, h1, h2, h3, h4⟩ :=
    renderTick_cpu_transform lumBT601 GpuPipeline.allResolved 0 1 (gradientFrame 640 480)
      640 480 FilterParams.init (⟨60, 40, 23 / 20, 8⟩ : AffineParams ℝ) rfl (by decide)
      (by norm_num)
  refine ⟨r, h1, h2, h3, h4, ?_⟩
  intro hEq
  have hs1 : 0 < Real.sin (radOf (8 : ℝ)) :=
    Real.sin_pos_of_pos_of_lt_pi radOf_eight_mem.1 radOf_eight_mem.2
  have e1 :=
    (affineMatrix_entries Real.cos Real.sin (⟨60, 40, 23 / 20, 8⟩ : AffineParams ℝ) 640 480).2.1
  simp only at e1
  have h01 := congrFun (congrFun hEq 0) 1
  rw [e1] at h01
  have hone : (1 : Matrix (Fin 3) (Fin 3) ℝ) 0 1 = 0 := by simp
  rw [hone] at h01
  have : 0 < Real.sin (radOf (8 : ℝ)) * (23 / 20) := by positivity
  linarith

/-! ## Theorems: the interactive parameters -/

/-- The toggle switches leave the filter and affine parameters alone. -/
theorem handleToggles_params (k : Keys) (s : InteractiveState ℝ) :
    (handleToggles k s).fp = s.fp ∧ (handleToggles k s).ap = s.ap := by
  have hG : ∀ s : InteractiveState ℝ, (handleKeyG k s).fp = s.fp ∧ (handleKeyG k s).ap = s.ap := by
    intro s
    unfold handleKeyG
    split_ifs <;> exact ⟨rfl, rfl⟩
  have hT : ∀ s : InteractiveState ℝ, (handleKeyT k s).fp = s.fp ∧ (handleKeyT k s).ap = s.ap := by
    intro s
    unfold handleKeyT
    split_ifs <;> exact ⟨rfl, rfl⟩
  have h1 : ∀ s : InteractiveState ℝ, (handleKey1 k s).fp = s.fp ∧ (handleKey1 k s).ap = s.ap := by
    intro s
    unfold handleKey1
    split_ifs <;> exact ⟨rfl, rfl⟩
  have h2 : ∀ s : InteractiveState ℝ, (handleKey2 k s).fp = s.fp ∧ (handleKey2 k s).ap = s.ap := by
    intro s
    unfold handleKey2
    split_ifs <;> exact ⟨rfl, rfl⟩
  have h3 : ∀ s : InteractiveState ℝ, (handleKey3 k s).fp = s.fp ∧ (handleKey3 k s).ap = s.ap := by
    intro s
    unfold handleKey3
    split_ifs <;> exact ⟨rfl, rfl⟩
  unfold handleToggles
  constructor
  · rw [(h3 _).1, (h2 _).1, (h1 _).1, (hT _).1, (hG _).1]
  · rw [(h3 _).2, (h2 _).2, (h1 _).2, (hT _).2, (hG _).2]

/-- The block size after the filter keys Z and X. -/
theorem handleFilterKeys_pixelBlock (k : Keys) (fp : FilterParams) :
    (handleFilterKeys k fp).pixelBlock
      = (if k.X then
          min 100 ((if k.Z then max 2 (fp.pixelBlock - 1) else fp.pixelBlock) + 1)
         else (if k.Z then max 2 (fp.pixelBlock - 1) else fp.pixelBlock)) := by
  unfold handleFilterKeys
  cases k.Z <;> cases k.X <;> cases k.C <;> cases k.V <;> rfl

/-- The threshold after the filter keys C and V. -/
theorem handleFilterKeys_thresh (k : Keys) (fp : FilterParams) :
    (handleFilterKeys k fp).thresh
      = (if k.V then min 255 ((if k.C then max 0 (fp.thresh - 1) else fp.thresh) + 1)
         else (if k.C then max 0 (fp.thresh - 1) else fp.thresh)) := by
  unfold handleFilterKeys
  cases k.Z <;> cases k.X <;> cases k.C <;> cases k.V <;> rfl

/-- The scale after the keys of the affine controls. -/
theorem handleAffineKeys_scale (k : Keys) (ap : AffineParams ℝ) :
    (handleAffineKeys k ap).scale
      = (if k.EQUAL then
          (if k.MINUS then max (1 / 10) (ap.scale - 1 / 50) else ap.scale) + 1 / 50
         else (if k.MINUS then max (1 / 10) (ap.scale - 1 / 50) else ap.scale)) := by
  unfold handleAffineKeys
  cases k.LEFT <;> cases k.RIGHT <;> cases k.UP <;> cases k.DOWN <;> cases k.Q <;> cases k.E <;>
    cases k.MINUS <;> cases k.EQUAL <;> rfl

/-- The parameter ranges that the key handling of `interactive_mode`
maintains. -/
theorem handleKeys_invariant (k : Keys) (s : InteractiveState ℝ)
    (h : (2 ≤ s.fp.pixelBlock ∧ s.fp.pixelBlock ≤ 100) ∧ (0 ≤ s.fp.thresh ∧ s.fp.thresh ≤ 255)
      ∧ 1 / 10 ≤ s.ap.scale) :
    (2 ≤ (handleKeys k s).fp.pixelBlock ∧ (handleKeys k s).fp.pixelBlock ≤ 100) ∧
    (0 ≤ (handleKeys k s).fp.thresh ∧ (handleKeys k s).fp.thresh ≤ 255) ∧
    1 / 10 ≤ (handleKeys k s).ap.scale := by
  have hfp : (handleToggles k s).fp = s.fp := (handleToggles_params k s).1
  have hap : (handleToggles k s).ap = s.ap := (handleToggles_params k s).2
  obtain ⟨⟨hb1, hb2⟩, ⟨ht1, ht2⟩, hsc⟩ := h
  have hfp' : (handleKeys k s).fp = handleFilterKeys k s.fp := by
    simp only [handleKeys, hfp]
  have hap' : (handleKeys k s).ap = handleAffineKeys k s.ap := by
    simp only [handleKeys, hap]
  rw [hfp', hap', handleFilterKeys_pixelBlock, handleFilterKeys_thresh, handleAffineKeys_scale]
  refine ⟨?_, ?_, ?_⟩
  · split_ifs <;> omega
  · split_ifs <;> omega
  · have hmax : (1 : ℝ) / 10 ≤ max (1 / 10) (s.ap.scale - 1 / 50) := le_max_left _ _
    split_ifs <;> linarith

/-- C20: starting from the initial state (`pixelBlock = 8`, `thresh = 60`,
`scale = 1`), after every tick of every sequence of ticks, with any
combination of keys held in each tick, `pixelBlock` is in `[2, 100]`,
`thresh` is in `[0, 255]` and `scale` is at least `0.1`. -/
theorem interactive_parameters_valid (ks : List Keys) (n : Nat) :
    (2 ≤ (interactiveRun (ks.take n) : InteractiveState ℝ).fp.pixelBlock ∧
      (interactiveRun (ks.take n) : InteractiveState ℝ).fp.pixelBlock ≤ 100) ∧
    (0 ≤ (interactiveRun (ks.take n) : InteractiveState ℝ).fp.thresh ∧
      (interactiveRun (ks.take n) : InteractiveState ℝ).fp.thresh ≤ 255) ∧
    1 / 10 ≤ (interactiveRun (ks.take n) : InteractiveState ℝ).ap.scale := by
  have hgen : ∀ (l : List Keys) (s : InteractiveState ℝ),
      ((2 ≤ s.fp.pixelBlock ∧ s.fp.pixelBlock ≤ 100) ∧ (0 ≤ s.fp.thresh ∧ s.fp.thresh ≤ 255)
        ∧ 1 / 10 ≤ s.ap.scale) →
      ((2 ≤ (l.foldl (fun s k => handleKeys k s) s).fp.pixelBlock
          ∧ (l.foldl (fun s k => handleKeys k s) s).fp.pixelBlock ≤ 100)
        ∧ (0 ≤ (l.foldl (fun s k => handleKeys k s) s).fp.thresh
          ∧ (l.foldl (fun s k => handleKeys k s) s).fp.thresh ≤ 255)
        ∧ 1 / 10 ≤ (l.foldl (fun s k => handleKeys k s) s).ap.scale) := by
    intro l
    induction l with
    | nil => intro s hs; exact hs
    | cons k l ih =>
      intro s hs
      rw [List.foldl_cons]
      exact ih _ (handleKeys_invariant k s hs)
  apply hgen
  refine ⟨⟨by decide, by decide⟩, ⟨by decide, by decide⟩, ?_⟩
  show (1 : ℝ) / 10 ≤ 1
  norm_num

/-! ## Theorems: the keep decision of SinCity -/

/-- The integer `db * db + dg * dg + dr * dr` of `sinCityCPU` as a sum of
squares. -/
theorem sqDistance_eq (p k : Vec3b) :
    sqDistance p k
      = ((p.b : Int) - (k.b : Int)) ^ 2 + ((p.g : Int) - (k.g : Int)) ^ 2
        + ((p.r : Int) - (k.r : Int)) ^ 2 := by
  unfold sqDistance
  ring

/-- On a non-empty frame `sinCityCPU` copies the frame into its gray version
under the mask `keepMask`. -/
theorem sinCityCPU_mask (lum : Vec3b → Nat) (img : Mat) (keepBGR : Vec3b) (thresh : Int)
    (hne : img.empty = false) :
    sinCityCPU lum img keepBGR thresh = Except.ok
      (copyToMasked img
        { rows := img.rows, cols := img.cols,
          px := fun y x =>
            { b := lum (img.px y x), g := lum (img.px y x), r := lum (img.px y x) } }
        (keepMask img keepBGR thresh)) := by
  have hdim : ¬ (img.rows = 0 ∨ img.cols = 0) := by
    simpa [Mat.empty] using hne
  simp only [sinCityCPU, cvtColorBGR2GRAY, cvtColorGRAY2BGR, hne, keepMask]
  simp only [Bool.false_eq_true, if_false, if_neg hdim]

/-- C21: the keep decision of `sinCityCPU` is made on the truncated integer
distance. At every position of every frame, for a threshold `t ≥ 0` the mask
`keep` is set, and the output pixel is the original pixel, if and only if
`(b - kb)^2 + (g - kg)^2 + (r - kr)^2 < (t + 1)^2`; otherwise, and for every
`t < 0`, the mask is 0 and the output pixel is the replicated luminance. -/
theorem sinCity_keep_decision (lum : Vec3b → Nat) (img : Mat) (keepBGR : Vec3b) (thresh : Int)
    (y x : Nat) (hy : y < img.rows) (hx : x < img.cols) :
    ∃ out : Mat,
      sinCityCPU lum img keepBGR thresh = Except.ok out ∧
      (0 ≤ thresh →
        ((keepMask img keepBGR thresh).px y x = 255 ↔
          (((img.px y x).b : Int) - (keepBGR.b : Int)) ^ 2
            + (((img.px y x).g : Int) - (keepBGR.g : Int)) ^ 2
            + (((img.px y x).r : Int) - (keepBGR.r : Int)) ^ 2 < (thresh + 1) ^ 2) ∧
        ((((img.px y x).b : Int) - (keepBGR.b : Int)) ^ 2
            + (((img.px y x).g : Int) - (keepBGR.g : Int)) ^ 2
            + (((img.px y x).r : Int) - (keepBGR.r : Int)) ^ 2 < (thresh + 1) ^ 2 →
          out.px y x = img.px y x) ∧
        (¬ ((((img.px y x).b : Int) - (keepBGR.b : Int)) ^ 2
            + (((img.px y x).g : Int) - (keepBGR.g : Int)) ^ 2
            + (((img.px y x).r : Int) - (keepBGR.r : Int)) ^ 2 < (thresh + 1) ^ 2) →
          (keepMask img keepBGR thresh).px y x = 0 ∧
          out.px y x
            = { b := lum (img.px y x), g := lum (img.px y x), r := lum (img.px y x) })) ∧
      (thresh < 0 →
        (keepMask img keepBGR thresh).px y x = 0 ∧
        out.px y x
          = { b := lum (img.px y x), g := lum (img.px y x), r := lum (img.px y x) }) := by
  have hne := Mat.empty_eq_false_of_lt img hy hx
  have hiff := colorDistance_le_iff (img.px y x) keepBGR thresh
  rw [sqDistance_eq] at hiff
  refine ⟨_, sinCityCPU_mask lum img keepBGR thresh hne, ?_, ?_⟩
  · intro ht
    refine ⟨?_, ?_, ?_⟩
    · constructor
      · intro hm
        by_cases hk : colorDistance (img.px y x) keepBGR ≤ thresh
        · exact (hiff.mp hk).2
        · simp [keepMask, hk] at hm
      · intro hsq
        have hk : colorDistance (img.px y x) keepBGR ≤ thresh := hiff.mpr ⟨ht, hsq⟩
        simp [keepMask, hk]
    · intro hsq
      have hk : colorDistance (img.px y x) keepBGR ≤ thresh := hiff.mpr ⟨ht, hsq⟩
      simp [copyToMasked, keepMask, hk]
    · intro hsq
      have hk : ¬ colorDistance (img.px y x) keepBGR ≤ thresh := fun h => hsq (hiff.mp h).2
      simp [copyToMasked, keepMask, hk]
  · intro ht
    have hk : ¬ colorDistance (img.px y x) keepBGR ≤ thresh := fun h => by
      have := (hiff.mp h).1
      omega
    simp [copyToMasked, keepMask, hk]

/-- Witness for C21: the 1x2 frame holding `(80, 21, 200)` and `(0, 0, 255)`
with `keepBGR = (20, 20, 200)` and threshold 60, read at the first pixel, whose
squared distance is `3601 < 61^2`. -/
theorem sinCity_keep_decision_witness :
    ∃ out : Mat,
      sinCityCPU lumBT601 (Mat.ofRows 2 [[⟨80, 21, 200⟩, ⟨0, 0, 255⟩]]) ⟨20, 20, 200⟩ 60
        = Except.ok out ∧
      out.px 0 0 = ⟨80, 21, 200⟩ := by
  obtain ⟨out, h1, h2, _⟩ :=
    sinCity_keep_decision lumBT601 (Mat.ofRows 2 [[⟨80, 21, 200⟩, ⟨0, 0, 255⟩]]) ⟨20, 20, 200⟩
      60 0 0 (by decide) (by decide)
  exact ⟨out, h1, (h2 (by decide)).2.1 (by decide)⟩

end VisualComputing
